import Mathlib

/-!
Verification development for the chat-history multi-provider parsing core.

The Python source (`chat_history/parsers.py`, `chat_history/models.py`) is
shallowly embedded below.  Raw JSON values are modelled by the inductive
`Json`; Python datetimes by `PyDateTime` (wall-clock seconds since the Unix
epoch as a rational, plus an optional fixed timezone offset in seconds);
exceptions by `Except PyErr`.  Python strings are Lean `String`s manipulated
through their character lists; the character predicates model Python's
behaviour on ASCII text (the inputs exercised by the theorems are ASCII).
`utc_now()` is modelled by threading an explicit `now : PyDateTime`
parameter through the parsers.
-/

set_option maxHeartbeats 1000000
set_option maxRecDepth 4000
set_option linter.unusedVariables false

/-- Characters stripped by Python's `str.strip()` (ASCII whitespace model). -/
def pyIsSpace (c : Char) : Bool :=
  c = ' ' || c = '\t' || c = '\n' || c = '\x0d' || c = '\x0b' || c = '\x0c'

/-- `str.strip()` on a character list: drop leading and trailing whitespace. -/
def stripChars (l : List Char) : List Char :=
  ((l.dropWhile pyIsSpace).reverse.dropWhile pyIsSpace).reverse

/-- Python `str.strip()`. -/
def pyStrip (s : String) : String :=
  ⟨stripChars s.data⟩

/-- Python `str.lower()` (ASCII model). -/
def pyLower (s : String) : String :=
  ⟨s.data.map Char.toLower⟩

/-- Does `pat` occur at the head of `l`? -/
def headOccurs (pat l : List Char) : Bool :=
  l.take pat.length = pat

/-- Does `pat` occur as a contiguous sublist of `l`?  (Python `in`.) -/
def subOccurs (pat : List Char) : List Char → Bool
  | [] => pat = []
  | c :: rest => headOccurs pat (c :: rest) || subOccurs pat rest

/-- Python `pat in s` for strings. -/
def strContains (s pat : String) : Bool :=
  subOccurs pat.data s.data

/-- Python `s.startswith(pat)`. -/
def pyStartsWith (s pat : String) : Bool :=
  headOccurs pat.data s.data

/-- Left-to-right non-overlapping replacement on character lists, as performed
by Python's `str.replace` (and by `re.sub` with a literal pattern).  The
source only calls it with a non-empty pattern; for an empty pattern this
model returns the input unchanged. -/
def replaceChars (pat repl : List Char) : List Char → List Char
  | [] => []
  | c :: rest =>
    if h : pat ≠ [] ∧ headOccurs pat (c :: rest) then
      repl ++ replaceChars pat repl ((c :: rest).drop pat.length)
    else
      c :: replaceChars pat repl rest
termination_by l => l.length
decreasing_by
  · have h2 : List.take pat.length (c :: rest) = pat := by
      have hb := h.2
      simp only [headOccurs] at hb
      exact of_decide_eq_true hb
    have hlen : pat.length ≤ (c :: rest).length := by
      have := congrArg List.length h2
      simp only [List.length_take] at this
      omega
    have hpos : 0 < pat.length := by
      cases pat with
      | nil => exact absurd rfl h.1
      | cons _ _ => simp
    simp only [List.length_drop, List.length_cons]
    omega
  · simp

/-- Python `s.replace(old, new)` (all occurrences, left to right). -/
def pyReplace (s old new : String) : String :=
  ⟨replaceChars old.data new.data s.data⟩

/-- Python `sep.join(parts)`. -/
def pyJoin (sep : String) (parts : List String) : String :=
  match parts with
  | [] => ""
  | p :: rest => rest.foldl (fun acc q => acc ++ sep ++ q) p

/-- Split a character list at every occurrence of the character `c`
(Python `str.split(c)` semantics: `n` separators yield `n+1` fields). -/
def splitOnChar (c : Char) : List Char → List (List Char)
  | [] => [[]]
  | d :: rest =>
    if d = c then
      [] :: splitOnChar c rest
    else
      match splitOnChar c rest with
      | [] => [[d]]
      | f :: fs => (d :: f) :: fs

/-- Python `str.isalpha` on a single character (ASCII model). -/
def pyIsAlpha (c : Char) : Bool :=
  c.isAlpha

theorem stripChars_nil : stripChars [] = [] := rfl

/-- A list that starts and ends with non-whitespace is unchanged by `stripChars`. -/
theorem stripChars_eq_self {l : List Char}
    (h1 : ∀ c, l.head? = some c → pyIsSpace c = false)
    (h2 : ∀ c, l.getLast? = some c → pyIsSpace c = false) :
    stripChars l = l := by
  unfold stripChars
  have hd : l.dropWhile pyIsSpace = l := by
    cases l with
    | nil => rfl
    | cons c rest =>
      rw [List.dropWhile_cons]
      simp [h1 c rfl]
  rw [hd]
  have hrev : l.reverse.dropWhile pyIsSpace = l.reverse := by
    cases hr : l.reverse with
    | nil => rfl
    | cons c rest =>
      rw [List.dropWhile_cons]
      have : l.getLast? = some c := by
        rw [← List.head?_reverse, hr]
        rfl
      simp [h2 c this]
  rw [hrev, List.reverse_reverse]

theorem dropWhile_head_not_space (l : List Char) :
    ∀ c, (l.dropWhile pyIsSpace).head? = some c → pyIsSpace c = false := by
  intro c hc
  have h := List.head?_dropWhile_not pyIsSpace l
  rw [hc] at h
  exact h

/-- The last character of a stripped string is not whitespace. -/
theorem stripChars_getLast_not_space (l : List Char) :
    ∀ c, (stripChars l).getLast? = some c → pyIsSpace c = false := by
  intro c hc
  unfold stripChars at hc
  rw [List.getLast?_eq_head?_reverse, List.reverse_reverse] at hc
  exact dropWhile_head_not_space _ c hc

/-- The first character of a stripped string is not whitespace. -/
theorem stripChars_head_not_space (l : List Char) :
    ∀ c, (stripChars l).head? = some c → pyIsSpace c = false := by
  intro c hc
  unfold stripChars at hc
  rw [List.head?_reverse] at hc
  -- the double-reversed dropWhile result is a suffix of `l.dropWhile pyIsSpace`
  obtain ⟨t, ht⟩ := List.dropWhile_suffix (l := (l.dropWhile pyIsSpace).reverse) pyIsSpace
  rcases hr : (l.dropWhile pyIsSpace).reverse.dropWhile pyIsSpace with _ | ⟨d, ds⟩
  · rw [hr] at hc; simp at hc
  · rw [hr] at ht hc
    have hlast : (l.dropWhile pyIsSpace).reverse.getLast? = some c := by
      rw [← ht, List.getLast?_append, hc]; rfl
    rw [List.getLast?_eq_head?_reverse, List.reverse_reverse] at hlast
    exact dropWhile_head_not_space _ c hlast

/-! ## JSON values (Python objects decoded by `json.load`) -/

/-- A Python value as produced by `json.load`: `None`, `bool`, numbers
(`int`/`float`, modelled together as rationals), `str`, `list`, `dict`
(an association list in insertion order; later duplicate keys shadow
earlier ones, as in Python). -/
inductive Json where
  | null : Json
  | bool : Bool → Json
  | num : ℚ → Json
  | str : String → Json
  | arr : List Json → Json
  | obj : List (String × Json) → Json

/-- Python truthiness (`bool(x)`) for decoded JSON values. -/
def truthy : Json → Bool
  | .null => false
  | .bool b => b
  | .num q => q != 0
  | .str s => s != ""
  | .arr l => !l.isEmpty
  | .obj kvs => !kvs.isEmpty

/-- Is the value hashable in Python (usable with `in` on a dict/set)?
Lists and dicts are not. -/
def jsonHashable : Json → Bool
  | .arr _ => false
  | .obj _ => false
  | _ => true

/-- `d[k]`-style lookup on an association list with Python dict semantics:
the last binding of a duplicated key wins. -/
def dictGet (k : String) (kvs : List (String × Json)) : Option Json :=
  kvs.foldl (fun acc p => if p.1 = k then some p.2 else acc) none

/-- Keep the first occurrence of each element (Python dict key order). -/
def firstDedup : List String → List String
  | [] => []
  | x :: xs => x :: (firstDedup xs).filter (fun y => y ≠ x)

/-- The keys of a Python dict in insertion order (first occurrence). -/
def dictKeys (kvs : List (String × Json)) : List String :=
  firstDedup (kvs.map Prod.fst)

/-- `dict.items()`: keys in insertion order paired with their (last) values. -/
def dictItems (kvs : List (String × Json)) : List (String × Json) :=
  (dictKeys kvs).map (fun k => (k, (dictGet k kvs).getD .null))

/-- Python `a or b` on values (truthiness-based selection). -/
def pyOr (a b : Json) : Json :=
  if truthy a then a else b

/-- Render a rational the way Python's `str()` renders the corresponding
number: integers exactly; for non-integral values (Python floats) this is a
stand-in decimal rendering (`str(float)`'s shortest-roundtrip repr is not
reproduced; no theorem below depends on non-integral rendering). -/
def numToStr (q : ℚ) : String :=
  if q.den = 1 then toString q.num else toString q.num ++ "/" ++ toString q.den

/-- Python `repr()` of a decoded JSON value (best-effort model: no escape
handling inside strings, and duplicate dict keys are shown un-deduplicated;
only reachable for container/str values passed to `str()`, which the
theorems below avoid). -/
def reprJson : Json → String
  | .null => "None"
  | .bool b => if b then "True" else "False"
  | .num q => numToStr q
  | .str s => "'" ++ s ++ "'"
  | .arr l => "[" ++ pyJoin ", " (l.attach.map fun x => reprJson x.1) ++ "]"
  | .obj kvs =>
      "\x7b" ++ pyJoin ", " (kvs.attach.map fun x =>
        "'" ++ x.1.1 ++ "': " ++ reprJson x.1.2) ++ "\x7d"
decreasing_by
  · have := List.sizeOf_lt_of_mem x.2
    simp only [Json.arr.sizeOf_spec]
    omega
  · have h1 := List.sizeOf_lt_of_mem x.2
    have h2 : sizeOf x.1.2 < sizeOf x.1 := by
      obtain ⟨a, b⟩ := x.1
      simp only [Prod.mk.sizeOf_spec]
      omega
    simp only [Json.obj.sizeOf_spec]
    omega

/-- Python `str()` of a decoded JSON value. -/
def pyStr : Json → String
  | .str s => s
  | v => reprJson v

/-! ## Python exceptions and attribute access -/

/-- The Python exceptions the embedded code can raise. -/
inductive PyErr where
  | typeError : PyErr
  | valueError : PyErr
  | overflowError : PyErr
  | attributeError : PyErr
deriving DecidableEq, Repr

/-- `value.get(key)` on an arbitrary Python value: dicts return the entry (or
`None`); any other value raises `AttributeError`. -/
def pyGet (v : Json) (k : String) : Except PyErr Json :=
  match v with
  | .obj kvs => .ok ((dictGet k kvs).getD .null)
  | _ => .error .attributeError

/-- Python iteration (`for x in v`): lists yield elements, dicts yield keys,
strings yield one-character strings; other values raise `TypeError`. -/
def pyIter (v : Json) : Except PyErr (List Json) :=
  match v with
  | .arr l => .ok l
  | .obj kvs => .ok ((dictKeys kvs).map Json.str)
  | .str s => .ok (s.data.map fun c => Json.str ⟨[c]⟩)
  | _ => .error .typeError

/-- `x in d` for a Python dict with string keys: `x` must be hashable
(`TypeError` otherwise); only an equal string key can match. -/
def pyInDict (v : Json) (kvs : List (String × Json)) : Except PyErr Bool :=
  match v with
  | .arr _ => .error .typeError
  | .obj _ => .error .typeError
  | .str s => .ok ((dictGet s kvs).isSome)
  | _ => .ok false

/-! ## Python datetimes

A `PyDateTime` stores the wall-clock reading as rational seconds from the
Unix epoch (interpreting the wall-clock fields as if they were UTC), plus
the `tzinfo` as an optional fixed offset in seconds (`some 0` = UTC,
`none` = naive).  The representable wall-clock range is year 1 to 9999. -/

structure PyDateTime where
  wall : ℚ
  off : Option Int
deriving DecidableEq, Repr

/-- The instant a datetime denotes (naive datetimes are compared by wall
clock; all datetimes compared in the embedded code are UTC-aware). -/
def dtInstant (dt : PyDateTime) : ℚ :=
  dt.wall - (dt.off.getD 0 : Int)

/-- Is this datetime timezone-aware with a UTC (zero-offset) tzinfo? -/
def isUtcAware (dt : PyDateTime) : Bool :=
  dt.off = some 0

/-- Wall-clock epoch seconds of `datetime.min` (year 1). -/
def dtMinSeconds : ℚ := -62135596800

/-- One past the wall-clock epoch seconds of `datetime.max` (year 9999). -/
def dtMaxSecondsExcl : ℚ := 253402300800

/-- `datetime.fromtimestamp(q, tz=timezone.utc)`: out of `time_t` range
raises `OverflowError`; out of the year 1–9999 range raises `ValueError`
(models CPython; sub-microsecond boundary rounding is not modelled). -/
def fromtimestampUtc (q : ℚ) : Except PyErr PyDateTime :=
  if (2 : ℚ) ^ 63 ≤ |q| then .error .overflowError
  else if q < dtMinSeconds ∨ dtMaxSecondsExcl ≤ q then .error .valueError
  else .ok ⟨q, some 0⟩

/-- `aware_dt.astimezone(timezone.utc)`. -/
def astimezoneUtc (dt : PyDateTime) : PyDateTime :=
  ⟨dt.wall - (dt.off.getD 0 : Int), some 0⟩

/-- Python `min(a, b)` on datetimes. -/
def pyMinDT (a b : PyDateTime) : PyDateTime :=
  if dtInstant b < dtInstant a then b else a

/-- Python `max(a, b)` on datetimes. -/
def pyMaxDT (a b : PyDateTime) : PyDateTime :=
  if dtInstant a < dtInstant b then b else a

/-- `dt + timedelta(seconds=s)`: keeps `tzinfo`, raises `OverflowError`
outside the representable wall-clock range. -/
def dtAddSeconds (dt : PyDateTime) (s : ℚ) : Except PyErr PyDateTime :=
  if dt.wall + s < dtMinSeconds ∨ dtMaxSecondsExcl ≤ dt.wall + s then
    .error .overflowError
  else
    .ok ⟨dt.wall + s, dt.off⟩

/-- The result of Python's `float()` on a string. -/
inductive PyFloatVal where
  | finite : ℚ → PyFloatVal
  | inf : PyFloatVal
  | ninf : PyFloatVal
  | nan : PyFloatVal
deriving DecidableEq, Repr

def digitVal (c : Char) : Nat := c.toNat - '0'.toNat

def digitsToNat (l : List Char) : Nat :=
  l.foldl (fun acc c => acc * 10 + digitVal c) 0

/-- Parse the exponent-free part of a float literal: `digits[.digits]` with
at least one digit overall.  Returns the exact rational value. -/
def parseMantissa (cs : List Char) : Option (ℚ × List Char) :=
  let intPart := cs.takeWhile Char.isDigit
  let rest1 := cs.dropWhile Char.isDigit
  match rest1 with
  | '.' :: rest2 =>
    let fracPart := rest2.takeWhile Char.isDigit
    let rest3 := rest2.dropWhile Char.isDigit
    if intPart.isEmpty && fracPart.isEmpty then none
    else some ((digitsToNat intPart : ℚ) +
      (digitsToNat fracPart : ℚ) / (10 : ℚ) ^ fracPart.length, rest3)
  | _ =>
    if intPart.isEmpty then none
    else some ((digitsToNat intPart : ℚ), rest1)

/-- Parse an optional exponent suffix `e[±]digits`. -/
def parseExponent (cs : List Char) : Option (Int × List Char) :=
  match cs with
  | 'e' :: rest | 'E' :: rest =>
    let (sign, rest2) : Int × List Char :=
      match rest with
      | '+' :: r => (1, r)
      | '-' :: r => (-1, r)
      | r => (1, r)
    let digits := rest2.takeWhile Char.isDigit
    let rest3 := rest2.dropWhile Char.isDigit
    if digits.isEmpty then none
    else some (sign * (digitsToNat digits : Int), rest3)
  | rest => some (0, rest)

/-- Python `float(s)` (model): optional surrounding whitespace and sign,
decimal or scientific notation, `inf`/`infinity`/`nan`.  The finite value
is the exact rational of the literal (IEEE-754 rounding is not modelled);
digit-group underscores and hex floats are not modelled. -/
def pyFloatOfString (s : String) : Option PyFloatVal :=
  let cs := stripChars s.data
  let (neg, cs1) : Bool × List Char :=
    match cs with
    | '+' :: r => (false, r)
    | '-' :: r => (true, r)
    | r => (false, r)
  let lowered := (⟨cs1⟩ : String)
  if pyLower lowered = "inf" || pyLower lowered = "infinity" then
    some (if neg then .ninf else .inf)
  else if pyLower lowered = "nan" then
    some .nan
  else
    match parseMantissa cs1 with
    | none => none
    | some (m, rest) =>
      match parseExponent rest with
      | none => none
      | some (e, rest2) =>
        if rest2.isEmpty then
          some (.finite ((if neg then -m else m) * (10 : ℚ) ^ e))
        else none

/-- `_parse_unix_datetime` from `chat_history/parsers.py` (with `utc_now()`
modelled by the explicit `now` argument; note Python `bool` is an `int`). -/
def parse_unix_datetime (raw : Json) (fallback : Option PyDateTime)
    (now : PyDateTime) : Except PyErr PyDateTime :=
  match raw with
  | .bool b => fromtimestampUtc (if b then 1 else 0)
  | .num q => fromtimestampUtc q
  | .str s =>
    match pyFloatOfString s with
    | none => .ok (fallback.getD now)
    | some .nan => .ok (fallback.getD now)
    | some .inf => .error .overflowError
    | some .ninf => .error .overflowError
    | some (.finite q) =>
      match fromtimestampUtc q with
      | .ok dt => .ok dt
      | .error .valueError => .ok (fallback.getD now)
      | .error e => .error e
  | _ => .ok (fallback.getD now)

/-! ## ISO-8601 parsing (`datetime.fromisoformat`) -/

def isLeapYear (y : Nat) : Bool :=
  y % 4 = 0 && (y % 100 ≠ 0 || y % 400 = 0)

def daysInMonth (y m : Nat) : Nat :=
  if m = 2 then (if isLeapYear y then 29 else 28)
  else if m = 4 || m = 6 || m = 9 || m = 11 then 30
  else 31

/-- Days from the Unix epoch to the civil date `y-m-d` (Hinnant's
`days_from_civil`; the divisions below are on non-negative operands, where
Lean's truncating `Int` division agrees with floor division). -/
def daysFromCivil (y : Int) (m d : Nat) : Int :=
  let y' : Int := y - (if m ≤ 2 then 1 else 0)
  let era : Int := (if 0 ≤ y' then y' else y' - 399) / 400
  let yoe : Int := y' - era * 400
  let doy : Int := (153 * ((m : Int) + (if m > 2 then -3 else 9)) + 2) / 5 + (d : Int) - 1
  let doe : Int := yoe * 365 + yoe / 4 - yoe / 100 + doy
  era * 146097 + doe - 719468

/-- Parse exactly `n` digits, returning their value and the rest. -/
def takeDigits (n : Nat) (cs : List Char) : Option (Nat × List Char) :=
  let ds := cs.take n
  if ds.length = n && ds.all Char.isDigit then
    some (digitsToNat ds, cs.drop n)
  else none

def expectChar (c : Char) (cs : List Char) : Option (List Char) :=
  match cs with
  | d :: rest => if d = c then some rest else none
  | [] => none

/-- Parse a `±HH:MM[:SS]` timezone offset (seconds).  Compact and
fractional offset forms are not modelled. -/
def parseIsoOffset (cs : List Char) : Option (Int × List Char) :=
  match cs with
  | sc :: rest =>
    if sc ≠ '+' ∧ sc ≠ '-' then none
    else
    let sign : Int := if sc = '+' then 1 else -1
    do
      let (oh, r1) ← takeDigits 2 rest
      let r2 ← expectChar ':' r1
      let (om, r3) ← takeDigits 2 r2
      let (osec, r4) ←
        match expectChar ':' r3 with
        | some r => (takeDigits 2 r)
        | none => some (0, r3)
      if oh * 3600 + om * 60 + osec < 86400 then
        some (sign * (oh * 3600 + om * 60 + osec : Nat), r4)
      else none
  | [] => none

/-- Parse `HH:MM[:SS[.ffffff]]` into seconds-within-day. -/
def parseIsoTime (cs : List Char) : Option (ℚ × List Char) := do
  let (hh, r1) ← takeDigits 2 cs
  let r2 ← expectChar ':' r1
  let (mm, r3) ← takeDigits 2 r2
  let (ss, frac, r6) ←
    match expectChar ':' r3 with
    | some r4 => do
      let (ss, r5) ← takeDigits 2 r4
      match expectChar '.' r5 with
      | some r6 =>
        let ds := r6.takeWhile Char.isDigit
        let r7 := r6.dropWhile Char.isDigit
        if ds.isEmpty then none
        else
          some (ss, (digitsToNat (ds.take 6) : ℚ) / (10 : ℚ) ^ (ds.take 6).length, r7)
      | none => some (ss, (0 : ℚ), r5)
    | none => some (0, (0 : ℚ), r3)
  if hh ≤ 23 && mm ≤ 59 && ss ≤ 59 then
    some ((hh * 3600 + mm * 60 + ss : Nat) + frac, r6)
  else none

/-- `datetime.fromisoformat` (model): `YYYY-MM-DD`, optionally followed by a
one-character separator and `HH:MM[:SS[.ffffff]]`, optionally followed by a
`±HH:MM[:SS]` offset.  Range-checks the fields.  Compact (separator-free)
date/time forms and week dates are not modelled. -/
def fromisoformat (s : String) : Option PyDateTime := do
  let cs := s.data
  let (y, r1) ← takeDigits 4 cs
  let r2 ← expectChar '-' r1
  let (m, r3) ← takeDigits 2 r2
  let r4 ← expectChar '-' r3
  let (d, r5) ← takeDigits 2 r4
  if y < 1 || m < 1 || m > 12 || d < 1 || d > daysInMonth y m then
    none
  else
    match r5 with
    | [] => some ⟨(daysFromCivil y m d) * 86400, none⟩
    | _ :: r6 => do
      let (secs, r7) ← parseIsoTime r6
      let wall : ℚ := (daysFromCivil y m d) * 86400 + secs
      match r7 with
      | [] => some ⟨wall, none⟩
      | _ => do
        let (off, r8) ← parseIsoOffset r7
        if r8.isEmpty then some ⟨wall, some off⟩ else none

/-- `_parse_iso_datetime` from `chat_history/parsers.py` (with `utc_now()`
modelled by the explicit `now` argument). -/
def parse_iso_datetime (raw : Json) (fallback : Option PyDateTime)
    (now : PyDateTime) : PyDateTime :=
  match raw with
  | .str s =>
    let normalized := pyReplace s "Z" "+00:00"
    match fromisoformat normalized with
    | some dt => if dt.off = none then { dt with off := some 0 } else astimezoneUtc dt
    | none => fallback.getD now
  | _ => fallback.getD now

/-! ## URL handling (`urllib.parse` subset used by the source) -/

def isHexDigit (c : Char) : Bool :=
  c.isDigit || ('a' ≤ c && c ≤ 'f') || ('A' ≤ c && c ≤ 'F')

def hexVal (c : Char) : Nat :=
  if c.isDigit then c.toNat - '0'.toNat
  else if 'a' ≤ c && c ≤ 'f' then c.toNat - 'a'.toNat + 10
  else c.toNat - 'A'.toNat + 10

def hexDigitUpper (n : Nat) : Char :=
  if n < 10 then Char.ofNat ('0'.toNat + n) else Char.ofNat ('A'.toNat + n - 10)

/-- UTF-8 encode one code point. -/
def utf8Encode (c : Char) : List Nat :=
  let n := c.toNat
  if n < 0x80 then [n]
  else if n < 0x800 then [0xC0 + n / 64, 0x80 + n % 64]
  else if n < 0x10000 then [0xE0 + n / 4096, 0x80 + n / 64 % 64, 0x80 + n % 64]
  else [0xF0 + n / 262144, 0x80 + n / 4096 % 64, 0x80 + n / 64 % 64, 0x80 + n % 64]

/-- UTF-8 decode a byte list, replacing invalid sequences with U+FFFD
(simplified model of `errors="replace"`: one replacement per rejected
byte run; all theorem inputs are ASCII). -/
def utf8Decode : List Nat → List Char
  | [] => []
  | b :: rest =>
    if b < 0x80 then
      Char.ofNat b :: utf8Decode rest
    else if 0xC2 ≤ b ∧ b ≤ 0xDF then
      match rest with
      | b2 :: rest2 =>
        if 0x80 ≤ b2 ∧ b2 < 0xC0 then
          Char.ofNat ((b - 0xC0) * 64 + (b2 - 0x80)) :: utf8Decode rest2
        else '\uFFFD' :: utf8Decode (b2 :: rest2)
      | [] => ['\uFFFD']
    else if 0xE0 ≤ b ∧ b ≤ 0xEF then
      match rest with
      | b2 :: b3 :: rest3 =>
        if 0x80 ≤ b2 ∧ b2 < 0xC0 ∧ 0x80 ≤ b3 ∧ b3 < 0xC0 then
          let n := (b - 0xE0) * 4096 + (b2 - 0x80) * 64 + (b3 - 0x80)
          if 0x800 ≤ n ∧ ¬ (0xD800 ≤ n ∧ n ≤ 0xDFFF) then
            (if h : n.isValidChar then Char.ofNatAux n h else '\uFFFD') :: utf8Decode rest3
          else '\uFFFD' :: utf8Decode (b2 :: b3 :: rest3)
        else '\uFFFD' :: utf8Decode (b2 :: b3 :: rest3)
      | [b2] => '\uFFFD' :: utf8Decode [b2]
      | [] => ['\uFFFD']
    else if 0xF0 ≤ b ∧ b ≤ 0xF4 then
      match rest with
      | b2 :: b3 :: b4 :: rest4 =>
        if 0x80 ≤ b2 ∧ b2 < 0xC0 ∧ 0x80 ≤ b3 ∧ b3 < 0xC0 ∧ 0x80 ≤ b4 ∧ b4 < 0xC0 then
          let n := (b - 0xF0) * 262144 + (b2 - 0x80) * 4096 + (b3 - 0x80) * 64 + (b4 - 0x80)
          if h : 0x10000 ≤ n ∧ n ≤ 0x10FFFF then
            (if h2 : n.isValidChar then Char.ofNatAux n h2 else '\uFFFD') :: utf8Decode rest4
          else '\uFFFD' :: utf8Decode (b2 :: b3 :: b4 :: rest4)
        else '\uFFFD' :: utf8Decode (b2 :: b3 :: b4 :: rest4)
      | [b2, b3] => '\uFFFD' :: utf8Decode [b2, b3]
      | [b2] => '\uFFFD' :: utf8Decode [b2]
      | [] => ['\uFFFD']
    else '\uFFFD' :: utf8Decode rest
termination_by l => l.length
decreasing_by all_goals simp_arith

/-- Characters never percent-encoded by `urllib.parse.quote`. -/
def quoteAlwaysSafe (c : Char) : Bool :=
  c.isAlphanum && c.toNat < 128 || c = '_' || c = '.' || c = '-' || c = '~'

/-- `urllib.parse.quote_plus(s, safe="")` as used by `urlencode`:
spaces become `+`, safe characters pass through, everything else is
percent-encoded from its UTF-8 bytes. -/
def quotePlus (s : String) : String :=
  ⟨s.data.flatMap fun c =>
    if c = ' ' then ['+']
    else if quoteAlwaysSafe c then [c]
    else (utf8Encode c).flatMap fun b => ['%', hexDigitUpper (b / 16), hexDigitUpper (b % 16)]⟩

/-- Token stream for `unquote_plus`: decoded escape bytes and plain chars. -/
inductive UQTok where
  | byte : Nat → UQTok
  | chr : Char → UQTok

def isByteTok : UQTok → Bool
  | .byte _ => true
  | .chr _ => false

def byteValOf : UQTok → Option Nat
  | .byte b => some b
  | .chr _ => none

/-- First phase of `unquote_plus`: `+` becomes a space, each valid `%XX`
escape becomes a byte token, everything else stays a character. -/
def tokenizeEscapes : List Char → List UQTok
  | [] => []
  | '%' :: h1 :: h2 :: rest =>
    if isHexDigit h1 && isHexDigit h2 then
      .byte (hexVal h1 * 16 + hexVal h2) :: tokenizeEscapes rest
    else
      .chr '%' :: tokenizeEscapes (h1 :: h2 :: rest)
  | c :: rest => .chr (if c = '+' then ' ' else c) :: tokenizeEscapes rest
termination_by l => l.length
decreasing_by all_goals simp_arith

/-- Second phase of `unquote_plus`: decode maximal byte runs as UTF-8. -/
def decodeTokens : List UQTok → List Char
  | [] => []
  | .chr c :: rest => c :: decodeTokens rest
  | .byte b :: rest =>
    utf8Decode (b :: (rest.takeWhile isByteTok).filterMap byteValOf) ++
      decodeTokens (rest.dropWhile isByteTok)
termination_by l => l.length
decreasing_by
  · simp_arith
  · have := (List.dropWhile_sublist (l := rest) isByteTok).length_le
    simp_arith
    omega

/-- `urllib.parse.unquote_plus`. -/
def unquotePlus (s : String) : String :=
  ⟨decodeTokens (tokenizeEscapes s.data)⟩

/-- Split at the first occurrence of `c` (Python `s.split(c, 1)`). -/
def splitOnceChar (c : Char) (l : List Char) : Option (List Char × List Char) :=
  match l with
  | [] => none
  | d :: rest =>
    if d = c then some ([], rest)
    else match splitOnceChar c rest with
      | some (a, b) => some (d :: a, b)
      | none => none

/-- `urllib.parse.parse_qsl(qs, keep_blank_values=True)`. -/
def parse_qsl (qs : String) : List (String × String) :=
  (splitOnChar '&' qs.data).filterMap fun field =>
    if field.isEmpty then none
    else
      match splitOnceChar '=' field with
      | some (n, v) => some (unquotePlus ⟨n⟩, unquotePlus ⟨v⟩)
      | none => some (unquotePlus ⟨field⟩, "")

/-- `urllib.parse.urlencode(pairs, doseq=True)` on string pairs. -/
def urlencode (pairs : List (String × String)) : String :=
  pyJoin "&" (pairs.map fun p => quotePlus p.1 ++ "=" ++ quotePlus p.2)

structure SplitResult where
  scheme : String
  netloc : String
  path : String
  query : String
  fragment : String
deriving DecidableEq, Repr

def isSchemeChar (c : Char) : Bool :=
  c.isAlphanum && c.toNat < 128 || c = '+' || c = '-' || c = '.'

/-- `urllib.parse.urlsplit` (model; netloc character validation that can
raise on exotic Unicode input is not modelled). -/
def urlsplit (url : String) : SplitResult :=
  let cs := url.data
  -- scheme
  let (scheme, rest) : String × List Char :=
    match splitOnceChar ':' cs with
    | some (before, after) =>
      if before.length > 0 && before.all isSchemeChar &&
          (match before.head? with
           | some c => c.isAlpha && c.toNat < 128
           | none => false) then
        (pyLower ⟨before⟩, after)
      else ("", cs)
    | none => ("", cs)
  -- netloc
  let (netloc, rest2) : String × List Char :=
    match rest with
    | '/' :: '/' :: r =>
      let nl := r.takeWhile fun c => c ≠ '/' && c ≠ '?' && c ≠ '#'
      (⟨nl⟩, r.dropWhile fun c => c ≠ '/' && c ≠ '?' && c ≠ '#')
    | r => ("", r)
  -- fragment
  let (rest3, fragment) : List Char × String :=
    match splitOnceChar '#' rest2 with
    | some (before, after) => (before, ⟨after⟩)
    | none => (rest2, "")
  -- query
  let (path, query) : String × String :=
    match splitOnceChar '?' rest3 with
    | some (before, after) => (⟨before⟩, ⟨after⟩)
    | none => (⟨rest3⟩, "")
  ⟨scheme, netloc, path, query, fragment⟩

/-- `urllib.parse.urlunsplit`. -/
def urlunsplit (r : SplitResult) : String :=
  let url0 := r.path
  let url1 :=
    if r.netloc ≠ "" ∨ (url0 ≠ "" ∧ pyStartsWith url0 "//") then
      let p := if url0 ≠ "" ∧ ¬ pyStartsWith url0 "/" then "/" ++ url0 else url0
      "//" ++ r.netloc ++ p
    else url0
  let url2 := if r.scheme ≠ "" then r.scheme ++ ":" ++ url1 else url1
  let url3 := if r.query ≠ "" then url2 ++ "?" ++ r.query else url2
  if r.fragment ≠ "" then url3 ++ "#" ++ r.fragment else url3

/-! ## Coercion helpers (`chat_history/coerce.py`) -/

/-- Modelled from the spec: the module `chat_history/coerce.py` is not among
the provided sources (only its import in `parsers.py`).  Per the spec's
defensive-parsing contract and every call site (`string_or_none(x) or
fallback`), it returns the string unchanged when the value is a string with
non-whitespace content, and `None` otherwise. -/
def string_or_none (v : Json) : Option String :=
  match v with
  | .str s => if pyStrip s ≠ "" then some s else none
  | _ => none

/-- Modelled from the spec: integer-valued numbers pass through, everything
else becomes `None` (only used for size/width metadata sidecars). -/
def int_or_none (v : Json) : Option Int :=
  match v with
  | .num q => if q.den = 1 then some q.num else none
  | _ => none

/-- Modelled from the spec: numbers pass through, everything else becomes
`None` (only used for duration metadata sidecars). -/
def float_or_none (v : Json) : Option ℚ :=
  match v with
  | .num q => some q
  | _ => none

/-! ## Canonical model (`chat_history/models.py`) -/

structure ContentBlock where
  type : String
  text : String
  data : List (String × Json) := []

structure MessageRecord where
  id : String
  provider : String
  role : String
  created : PyDateTime
  updated : Option PyDateTime
  model : Json
  content : List ContentBlock

structure ConversationRecord where
  id : String
  provider : String
  title : String
  created : PyDateTime
  updated : PyDateTime
  messages : List MessageRecord

def THINKING_BLOCK_TYPES : List String := ["thinking", "thoughts", "reasoning_recap"]

def TOOL_BLOCK_TYPES : List String :=
  ["tool_use", "tool_result", "execution_output", "tether_browsing_display"]

def ATTACHMENT_BLOCK_TYPES : List String :=
  ["image_asset_pointer", "audio_asset_pointer",
   "real_time_user_audio_video_asset_pointer", "attachment", "file",
   "inline_image", "inline_audio", "drive_document", "drive_video"]

def GROUNDING_BLOCK_TYPES : List String := ["grounding"]

def SYSTEM_BLOCK_TYPES : List String := ["system_error"]

/-- `MessageRecord.iter_visible_blocks` from `chat_history/models.py`. -/
def iter_visible_blocks (m : MessageRecord)
    (include_system include_tool include_thinking include_attachments : Bool) :
    List ContentBlock :=
  if ¬ include_system ∧ m.role = "system" then []
  else
    m.content.filter fun block =>
      ¬ (¬ include_thinking ∧ block.type ∈ THINKING_BLOCK_TYPES) ∧
      ¬ (¬ include_tool ∧ (block.type ∈ TOOL_BLOCK_TYPES ∨ m.role = "tool")) ∧
      ¬ (¬ include_attachments ∧ block.type ∈ ATTACHMENT_BLOCK_TYPES) ∧
      ¬ (¬ include_system ∧ block.type ∈ SYSTEM_BLOCK_TYPES)

/-- `MessageRecord.text` from `chat_history/models.py`. -/
def message_text (m : MessageRecord)
    (include_system include_tool include_thinking include_attachments : Bool) :
    String :=
  let blocks := iter_visible_blocks m include_system include_tool
    include_thinking include_attachments
  let parts := (blocks.map fun b => pyStrip b.text).filter fun p => p ≠ ""
  pyStrip (pyJoin "\n\n" parts)

/-! ## Generic helpers from `chat_history/parsers.py` -/

/-- Python dict assignment `d[k] = v`: update in place, else append. -/
def dictSet (kvs : List (String × Json)) (k : String) (v : Json) :
    List (String × Json) :=
  if (dictGet k kvs).isSome then
    kvs.map fun p => if p.1 = k then (k, v) else p
  else kvs ++ [(k, v)]

/-- Python `{**a, **b}` on (deduplicated) dicts. -/
def mergeDicts (a b : List (String × Json)) : List (String × Json) :=
  (dictItems a).map (fun p => (p.1, (dictGet p.1 b).getD p.2)) ++
    (dictItems b).filter fun p => (dictGet p.1 a).isNone

/-- Python `str.capitalize()`. -/
def pyCapitalize (s : String) : String :=
  match s.data with
  | [] => ""
  | c :: rest => ⟨c.toUpper :: rest.map Char.toLower⟩

/-- Python `str.split()` with no arguments: split on whitespace runs. -/
def splitWsChars : List Char → List (List Char)
  | [] => []
  | c :: rest =>
    if pyIsSpace c then splitWsChars rest
    else
      (c :: rest.takeWhile fun d => !pyIsSpace d) ::
        splitWsChars (rest.dropWhile fun d => !pyIsSpace d)
termination_by l => l.length
decreasing_by
  · simp_arith
  · have := (List.dropWhile_sublist (l := rest) (fun d => !pyIsSpace d)).length_le
    simp_arith
    omega

def pySplitWs (s : String) : List String :=
  (splitWsChars s.data).map fun l => ⟨l⟩

/-- `CHATGPT_ASSET_KIND_BY_PART_TYPE.get(part_type)`. -/
def chatgptAssetKind (part_type : String) : Option String :=
  if part_type = "image_asset_pointer" then some "image"
  else if part_type = "audio_asset_pointer" then some "audio"
  else if part_type = "real_time_user_audio_video_asset_pointer" then some "audio"
  else none

/-- `_humanize_identifier`. -/
def humanize_identifier (raw_value : String) : String :=
  pyCapitalize (pyStrip (pyReplace raw_value "_" " "))

def lightweightPreserveKeys : List String :=
  ["asset_pointer", "audio_asset_pointer", "video_container_asset_pointer",
   "url", "ref_id", "file_name", "file_type", "tool_use_id", "command",
   "name", "id"]

/-- `_lightweight_metadata`. -/
def lightweight_metadata (payload : List (String × Json)) : List (String × Json) :=
  (dictItems payload).filterMap fun p =>
    if p.1 ∈ ["text", "thinking", "parts", "content", "thoughts"] then none
    else
      match p.2 with
      | .num q => some (p.1, .num q)
      | .bool b => some (p.1, .bool b)
      | .str s =>
        if p.1 ∈ lightweightPreserveKeys then
          some (p.1, .str ⟨s.data.take 2000⟩)
        else if s.length ≤ 200 then some (p.1, .str s)
        else none
      | _ => none

def extractPriorityKeys : List String :=
  ["text", "thinking", "summary", "message", "title", "name", "content",
   "url", "snippet", "domain"]

def extractSkippedKeys : List String :=
  ["content_type", "type", "role", "status", "recipient", "channel"]

/-- `_extract_text`: depth- and breadth-bounded generic text flattening. -/
def extract_text (value : Json) (depth : Nat) : String :=
  if h : depth > 5 then ""
  else
    match value with
    | .null => ""
    | .str s => pyStrip s
    | .bool b => pyStr (.bool b)
    | .num q => numToStr q
    | .arr l =>
      let parts := (l.take 12).map fun item => extract_text item (depth + 1)
      pyStrip (pyJoin "\n" (parts.filter fun p => p ≠ ""))
    | .obj kvs =>
      let ordered := extractPriorityKeys ++
        (dictKeys kvs).filter fun k => k ∉ extractPriorityKeys
      let parts := (ordered.take 16).foldl (fun acc key =>
        if key ∈ extractSkippedKeys then acc
        else
          let tv := extract_text ((dictGet key kvs).getD .null) (depth + 1)
          if tv ≠ "" then acc ++ [tv] else acc) []
      pyStrip (pyJoin "\n" parts)
termination_by 6 - depth
decreasing_by all_goals omega

/-- `_chatgpt_asset_placeholder`. -/
def chatgpt_asset_placeholder (part_type : String) : String :=
  match chatgptAssetKind part_type with
  | some "image" => "[Image]"
  | some "audio" => "[Audio]"
  | _ => "[" ++ humanize_identifier part_type ++ "]"

/-- `_extract_chatgpt_asset_pointer`. -/
def extract_chatgpt_asset_pointer (part : List (String × Json)) : Option String :=
  ["asset_pointer", "audio_asset_pointer", "video_container_asset_pointer", "id"].foldl
    (fun acc key =>
      match acc with
      | some v => some v
      | none => string_or_none ((dictGet key part).getD .null)) none

/-- Python `a or b or c` over optional floats (`0.0` is falsy). -/
def pyOrFloat (a b : Option ℚ) : Option ℚ :=
  match a with
  | some q => if q ≠ 0 then some q else b
  | none => b

def optToJson (f : α → Json) : Option α → Json
  | some a => f a
  | none => .null

/-- `_build_chatgpt_asset_metadata`. -/
def build_chatgpt_asset_metadata (part_type : String)
    (part : List (String × Json)) : Option (List (String × Json)) :=
  match chatgptAssetKind part_type with
  | none => none
  | some kind =>
    let source_pointer := extract_chatgpt_asset_pointer part
    let dur := pyOrFloat
      (pyOrFloat (float_or_none ((dictGet "duration_seconds" part).getD .null))
        (float_or_none ((dictGet "duration_sec" part).getD .null)))
      (float_or_none ((dictGet "duration" part).getD .null))
    some
      [("asset_id", .null),
       ("kind", .str kind),
       ("source_pointer", optToJson Json.str source_pointer),
       ("mime_type", optToJson Json.str (string_or_none ((dictGet "mime_type" part).getD .null))),
       ("size_bytes", optToJson (fun i => Json.num i) (int_or_none ((dictGet "size_bytes" part).getD .null))),
       ("width", optToJson (fun i => Json.num i) (int_or_none ((dictGet "width" part).getD .null))),
       ("height", optToJson (fun i => Json.num i) (int_or_none ((dictGet "height" part).getD .null))),
       ("format", optToJson Json.str (string_or_none ((dictGet "format" part).getD .null))),
       ("duration", optToJson Json.num dur),
       ("is_resolved", .bool false),
       ("asset_url", .null)]

/-- `_fallback_file_name`. -/
def fallback_file_name (pre : String) (index : Nat) : String :=
  pre ++ "-" ++ toString (index + 1)

/-- `_build_claude_attachment_block`. -/
def build_claude_attachment_block (attachment : List (String × Json))
    (attachment_index : Nat) : ContentBlock :=
  let g := fun k => (dictGet k attachment).getD .null
  let raw_file_name := string_or_none (g "file_name")
  let file_name := raw_file_name.getD (fallback_file_name "attachment" attachment_index)
  let file_type := (string_or_none (g "file_type")).getD "unknown"
  let extracted_content := string_or_none (g "extracted_content")
  let file_size := int_or_none (g "file_size")
  let md0 := lightweight_metadata attachment
  let md1 := dictSet md0 "file_name" (.str file_name)
  let md2 := dictSet md1 "file_type" (.str file_type)
  let md3 := dictSet md2 "attachment_index" (.num attachment_index)
  let md4 := match file_size with
    | some n => dictSet md3 "file_size" (.num n)
    | none => md3
  match extracted_content with
  | some content =>
    let md5 := dictSet md4 "has_extracted_content" (.bool true)
    let md6 := dictSet md5 "attachment_label"
      (.str (file_name ++ " (" ++ file_type ++ ")"))
    let md7 := dictSet md6 "extracted_content_length" (.num content.length)
    { type := "attachment", text := content, data := md7 }
  | none =>
    let md5 := dictSet md4 "has_extracted_content" (.bool false)
    { type := "attachment",
      text := "[Attachment] " ++ file_name ++ " (" ++ file_type ++ ")",
      data := md5 }

/-- `_build_claude_file_block`. -/
def build_claude_file_block (file_record : List (String × Json))
    (file_index : Nat) : ContentBlock :=
  let raw_file_name := string_or_none ((dictGet "file_name" file_record).getD .null)
  let file_name := raw_file_name.getD (fallback_file_name "file" file_index)
  let md0 := lightweight_metadata file_record
  let md1 := dictSet md0 "file_name" (.str file_name)
  let md2 := dictSet md1 "file_index" (.num file_index)
  { type := "file", text := "[File] " ++ file_name, data := md2 }

/-- Python `a or b` on strings (first operand if non-empty). -/
def pyOrStr (a b : String) : String :=
  if a ≠ "" then a else b

/-- `_parse_chatgpt_part`. -/
def parse_chatgpt_part (content_type : String) (part : Json) : List ContentBlock :=
  match part with
  | .str s =>
    let text := pyStrip s
    if text ≠ "" then [{ type := content_type, text := text, data := [] }] else []
  | .obj kvs =>
    let part_type := pyStr ((dictGet "content_type" kvs).getD (.str "object"))
    let text0 := pyOrStr
      (pyOrStr (extract_text ((dictGet "text" kvs).getD .null) 0)
        (extract_text ((dictGet "message" kvs).getD .null) 0))
      (extract_text ((dictGet "title" kvs).getD .null) 0)
    let asset_metadata := build_chatgpt_asset_metadata part_type kvs
    let text := if text0 = "" then chatgpt_asset_placeholder part_type else text0
    let metadata := lightweight_metadata kvs
    let metadata := match asset_metadata with
      | some am => dictSet metadata "asset" (.obj am)
      | none => metadata
    [{ type := part_type, text := text, data := metadata }]
  | _ => []

/-- `_normalize_text_for_dedupe`. -/
def normalize_text_for_dedupe (value : String) : String :=
  pyStrip (pyJoin " " (pySplitWs value))

/-- `_chatgpt_block_dedupe_key`. -/
def chatgpt_block_dedupe_key (block : ContentBlock) (rendered_text : String) :
    String × String × Option String :=
  let normalized := normalize_text_for_dedupe rendered_text
  let asset_payload := dictGet "asset" block.data
  match asset_payload with
  | some (.obj akvs) =>
    (match string_or_none ((dictGet "source_pointer" akvs).getD .null) with
     | some sp => (block.type, normalized, some sp)
     | none =>
       match string_or_none ((dictGet "asset_pointer" block.data).getD .null) with
       | some sp => (block.type, normalized, some sp)
       | none => (block.type, normalized, none))
  | _ =>
    match string_or_none ((dictGet "asset_pointer" block.data).getD .null) with
    | some sp => (block.type, normalized, some sp)
    | none => (block.type, normalized, none)

/-- `_normalize_reference_url`. -/
def normalize_reference_url (raw_url : String) : String :=
  let cleaned := pyStrip raw_url
  if cleaned = "" then ""
  else
    let split := urlsplit cleaned
    if split.scheme ≠ "http" ∧ split.scheme ≠ "https" then cleaned
    else
      let filtered := (parse_qsl split.query).filter fun p =>
        ¬ pyStartsWith (pyLower p.1) "utm_"
      let query := urlencode filtered
      urlunsplit ⟨split.scheme, split.netloc, split.path, query, split.fragment⟩

/-- Does the regex's URL character class accept `c` (`[^)\\s]`)? -/
def mdUrlChar (c : Char) : Bool :=
  c ≠ ')' && !pyIsSpace c

/-- Attempted match of the URL body after a scheme of length `n`. -/
def mdMatchFrom (n : Nat) (rest : List Char) : Option (String × List Char) :=
  match (rest.drop n).dropWhile mdUrlChar with
  | ')' :: tail =>
    if ((rest.drop n).takeWhile mdUrlChar).isEmpty then none
    else some (⟨rest.take n ++ (rest.drop n).takeWhile mdUrlChar⟩, tail)
  | _ => none

/-- One attempted match of `\\((https?://[^)\\s]+)\\)` with the opening
parenthesis already consumed: returns the captured URL and the characters
after the closing parenthesis. -/
def mdMatchAt (rest : List Char) : Option (String × List Char) :=
  if headOccurs "https://".data rest then mdMatchFrom 8 rest
  else if headOccurs "http://".data rest then mdMatchFrom 7 rest
  else none

theorem mdMatchFrom_shrink {n : Nat} {rest : List Char} {u : String}
    {tail : List Char} (h : mdMatchFrom n rest = some (u, tail)) :
    tail.length < rest.length := by
  unfold mdMatchFrom at h
  split at h
  · rename_i tl heq
    split at h
    · exact absurd h (by simp)
    · simp only [Option.some.injEq, Prod.mk.injEq] at h
      have h2 := (List.dropWhile_sublist (l := rest.drop n) mdUrlChar).length_le
      rw [heq] at h2
      simp only [List.length_cons, List.length_drop] at h2
      obtain ⟨h3, h4⟩ := h
      subst h4
      omega
  · exact absurd h (by simp)

theorem mdMatchAt_shrink {rest : List Char} {u : String} {tail : List Char}
    (h : mdMatchAt rest = some (u, tail)) : tail.length < rest.length := by
  unfold mdMatchAt at h
  split at h
  · exact mdMatchFrom_shrink h
  · split at h
    · exact mdMatchFrom_shrink h
    · exact absurd h (by simp)

/-- `MARKDOWN_LINK_URL_RE.findall`: all URLs captured by
`\\((https?://[^)\\s]+)\\)`, left to right, non-overlapping. -/
def findMdUrls : List Char → List String
  | [] => []
  | '(' :: rest =>
    match hm : mdMatchAt rest with
    | some (u, tail) => u :: findMdUrls tail
    | none => findMdUrls rest
  | _ :: rest => findMdUrls rest
termination_by l => l.length
decreasing_by
  · have := mdMatchAt_shrink hm
    simp_arith
    omega
  · simp_arith
  · simp_arith

/-- `_extract_reference_urls`. -/
def extract_reference_urls (reference : List (String × Json)) : List String :=
  let fromAlt :=
    match (dictGet "alt" reference).getD .null with
    | .str s => if pyStrip s ≠ "" then findMdUrls s.data else []
    | _ => []
  let fromSafe :=
    match (dictGet "safe_urls" reference).getD .null with
    | .arr l => l.filterMap fun u =>
        match u with
        | .str s => if pyStrip s ≠ "" then some (pyStrip s) else none
        | _ => none
    | _ => []
  let fromItems :=
    match (dictGet "items" reference).getD .null with
    | .arr l => l.filterMap fun item =>
        match item with
        | .obj ikvs =>
          (match (dictGet "url" ikvs).getD .null with
           | .str s => if pyStrip s ≠ "" then some (pyStrip s) else none
           | _ => none)
        | _ => none
    | _ => []
  fromAlt ++ fromSafe ++ fromItems

/-- `_reference_label`. -/
def reference_label (url : String) : String :=
  let split := urlsplit url
  if split.scheme ≠ "http" ∧ split.scheme ≠ "https" then url
  else if split.path = "" ∨ split.path = "/" then split.netloc
  else split.netloc ++ split.path

/-- One `raw_url` step of `_render_content_reference_links`'s de-duplication
scan (`seen_urls` is recoverable as the set of elements of `acc2`). -/
def urlFoldStep (acc2 : List String) (raw_url : String) : List String :=
  if normalize_reference_url raw_url = "" ∨ normalize_reference_url raw_url ∈ acc2
  then acc2
  else acc2 ++ [normalize_reference_url raw_url]

/-- One reference of `_render_content_reference_links`'s de-duplication scan. -/
def refFoldStep (acc : List String) (reference : Json) : List String :=
  match reference with
  | .obj rkvs => (extract_reference_urls rkvs).foldl urlFoldStep acc
  | _ => acc

/-- `_render_content_reference_links`. -/
def render_content_reference_links (references : List Json) : String :=
  let deduped := references.foldl refFoldStep []
  if deduped.isEmpty then ""
  else
    let links := deduped.map fun url =>
      "[" ++ reference_label url ++ "](" ++ url ++ ")"
    "(" ++ pyJoin " · " links ++ ")"

/-- `CITATION_MARKER_RE.sub("", text)`: the pattern `cite.*?` has a lazy
tail that matches the empty string, so it removes exactly the literal
occurrences of `cite`, left to right. -/
def citationMarkerSub (text : String) : String :=
  pyReplace text "cite" ""

/-- Append-or-extend for `grouped_references.setdefault(mt, []).append(r)`. -/
def groupedAppend (acc : List (String × List Json)) (mt : String) (r : Json) :
    List (String × List Json) :=
  if acc.any fun p => p.1 = mt then
    acc.map fun p => if p.1 = mt then (p.1, p.2 ++ [r]) else p
  else acc ++ [(mt, [r])]

/-- `_apply_chatgpt_content_references`. -/
def apply_chatgpt_content_references (text : String)
    (message_metadata : Option (List (String × Json))) : String :=
  if text = "" then text
  else
    match message_metadata with
    | none => citationMarkerSub text
    | some md =>
      let references := (dictGet "content_references" md).getD .null
      let grouped : List (String × List Json) :=
        match references with
        | .arr l =>
          l.foldl (fun acc reference =>
            match reference with
            | .obj rkvs =>
              (match (dictGet "matched_text" rkvs).getD .null with
               | .str mt => if mt ≠ "" then groupedAppend acc mt reference else acc
               | _ => acc)
            | _ => acc) []
        | _ => []
      let replacements := grouped.filterMap fun p =>
        let replacement := render_content_reference_links p.2
        if replacement ≠ "" then some (p.1, replacement) else none
      let sortedRepl := replacements.mergeSort fun a b => b.1.length ≤ a.1.length
      let rendered := sortedRepl.foldl (fun acc p => pyReplace acc p.1 p.2) text
      citationMarkerSub rendered

/-- `_parse_chatgpt_content`. -/
def parse_chatgpt_content (content : Json)
    (message_metadata : Option (List (String × Json))) : List ContentBlock :=
  match content with
  | .obj ckvs =>
    let g := fun k => (dictGet k ckvs).getD .null
    let content_type := pyStr ((dictGet "content_type" ckvs).getD (.str "unknown"))
    let blocks0 : List ContentBlock :=
      if content_type = "thoughts" then
        let thoughts_text := extract_text (g "thoughts") 0
        if thoughts_text ≠ "" then
          [{ type := "thoughts", text := thoughts_text, data := [] }]
        else []
      else if content_type = "reasoning_recap" then
        let recap_text := extract_text (g "content") 0
        if recap_text ≠ "" then
          [{ type := "reasoning_recap", text := recap_text, data := [] }]
        else []
      else if content_type = "tether_browsing_display" then
        let browsing_text := pyOrStr (extract_text (g "summary") 0) (extract_text (g "result") 0)
        if browsing_text ≠ "" then
          [{ type := "tether_browsing_display", text := browsing_text, data := [] }]
        else []
      else
        let direct_text := extract_text (g "text") 0
        let fromDirect : List ContentBlock :=
          if direct_text ≠ "" then
            [{ type := content_type, text := direct_text,
               data := lightweight_metadata ckvs }]
          else []
        let fromParts : List ContentBlock :=
          match g "parts" with
          | .arr parts => parts.flatMap fun part => parse_chatgpt_part content_type part
          | _ => []
        fromDirect ++ fromParts
    let blocks1 : List ContentBlock :=
      if content_type = "code" ∧ blocks0.isEmpty then
        let metadata := message_metadata.getD []
        let code_text := pyOrStr
          (extract_text ((dictGet "finished_text" metadata).getD .null) 0)
          (extract_text ((dictGet "initial_text" metadata).getD .null) 0)
        if code_text ≠ "" then
          blocks0 ++ [{ type := "code", text := code_text,
                        data := lightweight_metadata (mergeDicts metadata ckvs) }]
        else blocks0
      else blocks0
    let blocks2 : List ContentBlock :=
      if blocks1.isEmpty then
        let fallback_text := extract_text content 0
        if fallback_text = "" ∧ content_type = "text" then []
        else
          let fallback_text :=
            if fallback_text ≠ "" ∧
                pyLower (pyStrip fallback_text) = pyLower (pyStrip content_type) then
              (if content_type = "text" then fallback_text else "")
            else fallback_text
          if fallback_text ≠ "" ∧
              pyLower (pyStrip fallback_text) = pyLower (pyStrip content_type) ∧
              content_type = "text" then []
          else
            [{ type := content_type,
               text := pyOrStr fallback_text ("[" ++ humanize_identifier content_type ++ "]"),
               data := lightweight_metadata ckvs }]
      else blocks1
    -- de-duplication pass
    (blocks2.foldl (fun (st : List (String × String × Option String) × List ContentBlock) block =>
      let rendered_text := pyStrip (apply_chatgpt_content_references block.text message_metadata)
      if rendered_text = "" then st
      else
        let key := chatgpt_block_dedupe_key block rendered_text
        if key ∈ st.1 then st
        else (st.1 ++ [key],
          st.2 ++ [{ type := block.type, text := rendered_text, data := block.data }])) ([], [])).2
  | _ => []

/-! ## `_build_active_branch_path` and `parse_chatgpt_export` -/

/-- The while-loop of `_build_active_branch_path`, in current-to-root order.
`remaining` is the set of mapping keys not yet in `seen` (the loop guard
`cursor and cursor in mapping and cursor not in seen` is `cursor` truthy and
`cursor ∈ remaining` under that invariant, which the initial call
establishes with `remaining = dictKeys mapping`).  A truthy unhashable
cursor raises `TypeError` from the `in` test, as in Python. -/
def branchWalk (mapping : List (String × Json)) :
    (remaining : List String) → (cursor : Json) → Except PyErr (List String)
  | remaining, cursor =>
    if truthy cursor = false then .ok []
    else if jsonHashable cursor = false then .error .typeError
    else
      match cursor with
      | .str s =>
        if hmem : s ∈ remaining then do
          let node := (dictGet s mapping).getD .null
          let parent ← pyGet node "parent"
          let tailPath ← branchWalk mapping (remaining.erase s) parent
          .ok (s :: tailPath)
        else .ok []
      | _ => .ok []
termination_by remaining _ => remaining.length
decreasing_by
  have := List.length_erase_of_mem hmem
  have : 0 < remaining.length := List.length_pos_of_mem hmem
  omega

/-- The timestamp-collection loop of `_build_active_branch_path`'s fallback
branch (nodes with a dict `message` carrying a numeric `create_time`). -/
def branchSortable : List (String × Json) → Except PyErr (List (ℚ × String))
  | [] => .ok []
  | item :: rest => do
    let message ← pyGet item.2 "message"
    let tail ← branchSortable rest
    match message with
    | .obj mkvs =>
      (match (dictGet "create_time" mkvs).getD .null with
       | .num t => .ok ((t, item.1) :: tail)
       | .bool b => .ok (((if b then (1 : ℚ) else 0), item.1) :: tail)
       | _ => .ok tail)
    | _ => .ok tail

/-- `_build_active_branch_path`. -/
def build_active_branch_path (mapping : List (String × Json))
    (current_node : Json) : Except PyErr (List String) :=
  if mapping.isEmpty then .ok []
  else
    match (if truthy current_node then pyInDict current_node mapping
           else .ok false) with
    | .error e => .error e
    | .ok true =>
      (match current_node with
       | .str cn =>
         (branchWalk mapping (dictKeys mapping) (.str cn)).map List.reverse
       | _ => .error .typeError)
    | .ok false =>
      (branchSortable (dictItems mapping)).map fun sortable =>
        (sortable.mergeSort fun a b =>
          decide (a.1 < b.1 ∨ (a.1 = b.1 ∧ ¬ b.2 < a.2))).map Prod.snd


/-- The per-node message extraction of `parse_chatgpt_export`
(loop body over `node_ids`). -/
def chatgptNodeMessage (mapping : List (String × Json)) (default_model : Json)
    (created now : PyDateTime) (node_id : String) :
    Except PyErr (Option MessageRecord) := do
  let node := pyOr ((dictGet node_id mapping).getD .null) (.obj [])
  let raw_message ← pyGet node "message"
  match raw_message with
  | .obj mkvs => do
    let message_id := pyStr (pyOr ((dictGet "id" mkvs).getD .null) (.str node_id))
    let author := pyOr ((dictGet "author" mkvs).getD .null) (.obj [])
    let roleJ ← pyGet author "role"
    let role := pyStr (pyOr roleJ (.str "unknown"))
    let message_created ← parse_unix_datetime ((dictGet "create_time" mkvs).getD .null)
      (some created) now
    let message_updated ← parse_unix_datetime ((dictGet "update_time" mkvs).getD .null)
      (some message_created) now
    let metadata := pyOr ((dictGet "metadata" mkvs).getD .null) (.obj [])
    let hidden :=
      match metadata with
      | .obj mdkvs => truthy ((dictGet "is_visually_hidden_from_conversation" mdkvs).getD .null)
      | _ => false
    if hidden then pure none
    else do
      let modelSlug ← pyGet metadata "model_slug"
      let model := pyOr modelSlug default_model
      let mdOpt : Option (List (String × Json)) :=
        match metadata with
        | .obj mdkvs => some mdkvs
        | _ => none
      let content_blocks := parse_chatgpt_content ((dictGet "content" mkvs).getD .null) mdOpt
      if content_blocks.isEmpty then pure none
      else
        pure (some
          { id := message_id, provider := "chatgpt", role := role,
            created := message_created, updated := some message_updated,
            model := model, content := content_blocks })
  | _ => pure none

/-- The message loop of `parse_chatgpt_export` over the active-branch ids. -/
def chatgptMessages (mapping : List (String × Json)) (default_model : Json)
    (created now : PyDateTime) : List String → Except PyErr (List MessageRecord)
  | [] => .ok []
  | nid :: rest => do
    let head ← chatgptNodeMessage mapping default_model created now nid
    let tail ← chatgptMessages mapping default_model created now rest
    match head with
    | some m => .ok (m :: tail)
    | none => .ok tail

/-- The per-conversation body of `parse_chatgpt_export`. -/
def parse_chatgpt_conversation (raw : Json) (now : PyDateTime) :
    Except PyErr (Option ConversationRecord) :=
  match raw with
  | .obj rkvs => do
    let g := fun k => (dictGet k rkvs).getD Json.null
    let conversation_id :=
      pyStrip (pyStr (pyOr (g "id") (pyOr (g "conversation_id") (.str ""))))
    if conversation_id = "" then pure none
    else do
      let created ← parse_unix_datetime (g "create_time") none now
      let updated ← parse_unix_datetime (g "update_time") (some created) now
      let title := pyStr (pyOr (g "title") (.str "[Untitled]"))
      let default_model := g "default_model_slug"
      let mapping : List (String × Json) :=
        match pyOr (g "mapping") (.obj []) with
        | .obj m => m
        | _ => []
      let node_ids ← build_active_branch_path mapping (g "current_node")
      let messages ← chatgptMessages mapping default_model created now node_ids
      let created :=
        match messages.head? with
        | some m0 => pyMinDT created m0.created
        | none => created
      let updated :=
        match messages.getLast? with
        | some ml => pyMaxDT updated ml.created
        | none => updated
      pure (some { id := conversation_id, provider := "chatgpt", title := title,
                   created := created, updated := updated, messages := messages })
  | _ => pure none

/-- The conversation loop of `parse_chatgpt_export`. -/
def chatgptConversations (now : PyDateTime) :
    List Json → Except PyErr (List ConversationRecord)
  | [] => .ok []
  | rc :: rest => do
    let c ← parse_chatgpt_conversation rc now
    let tail ← chatgptConversations now rest
    match c with
    | some conv => .ok (conv :: tail)
    | none => .ok tail

/-- `parse_chatgpt_export` (the file's decoded JSON value stands in for the
opened file). -/
def parse_chatgpt_export (raw : Json) (now : PyDateTime) :
    Except PyErr (List ConversationRecord) := do
  let items ← pyIter raw
  chatgptConversations now items

/-! ## `parse_claude_export` -/

/-- `_parse_claude_content_block`. -/
def parse_claude_content_block (block : List (String × Json)) : ContentBlock :=
  let g := fun k => (dictGet k block).getD Json.null
  let block_type := pyStr (pyOr (g "type") (.str "unknown"))
  let text0 :=
    if block_type = "text" then extract_text (g "text") 0
    else if block_type = "thinking" then extract_text (g "thinking") 0
    else if block_type = "tool_use" then
      pyOrStr (extract_text (g "message") 0) (extract_text (g "input") 0)
    else if block_type = "tool_result" then
      pyOrStr (pyOrStr (extract_text (g "message") 0) (extract_text (g "content") 0))
        (extract_text (g "display_content") 0)
    else if block_type = "voice_note" then
      pyOrStr (extract_text (g "text") 0) (extract_text (g "title") 0)
    else extract_text (.obj block) 0
  let text := if text0 = "" then "[" ++ humanize_identifier block_type ++ "]" else text0
  { type := block_type, text := text, data := lightweight_metadata block }

/-- The per-message body of `parse_claude_export`. -/
def claudeMessage (created now : PyDateTime) (raw_message : Json) :
    Option MessageRecord :=
  match raw_message with
  | .obj mkvs =>
    let g := fun k => (dictGet k mkvs).getD Json.null
    let message_id := pyStr (pyOr (g "uuid") (.str ""))
    if message_id = "" then none
    else
      let sender := pyStr (pyOr (g "sender") (.str "unknown"))
      let role := if sender = "human" then "user" else sender
      let message_created := parse_iso_datetime (g "created_at") (some created) now
      let message_updated := parse_iso_datetime (g "updated_at") (some message_created) now
      let fromStructured : List ContentBlock :=
        match g "content" with
        | .arr l => l.filterMap fun b =>
            match b with
            | .obj bkvs => some (parse_claude_content_block bkvs)
            | _ => none
        | _ => []
      let withFallback : List ContentBlock :=
        if fromStructured.isEmpty then
          let fallback_text := extract_text (g "text") 0
          if fallback_text ≠ "" then
            [{ type := "text", text := fallback_text, data := [] }]
          else []
        else fromStructured
      let withAttachments : List ContentBlock :=
        withFallback ++
          (match g "attachments" with
           | .arr l => (l.enum.filterMap fun p =>
               match p.2 with
               | .obj akvs => some (build_claude_attachment_block akvs p.1)
               | _ => none)
           | _ => [])
      let content_blocks : List ContentBlock :=
        withAttachments ++
          (match g "files" with
           | .arr l => (l.enum.filterMap fun p =>
               match p.2 with
               | .obj fkvs => some (build_claude_file_block fkvs p.1)
               | _ => none)
           | _ => [])
      if content_blocks.isEmpty then none
      else
        some { id := message_id, provider := "claude", role := role,
               created := message_created, updated := some message_updated,
               model := .null, content := content_blocks }
  | _ => none

/-- The per-conversation body of `parse_claude_export`. -/
def parse_claude_conversation (raw : Json) (now : PyDateTime) :
    Option ConversationRecord :=
  match raw with
  | .obj rkvs =>
    let g := fun k => (dictGet k rkvs).getD Json.null
    let conversation_id := pyStrip (pyStr (pyOr (g "uuid") (.str "")))
    if conversation_id = "" then none
    else
      let created := parse_iso_datetime (g "created_at") none now
      let updated := parse_iso_datetime (g "updated_at") (some created) now
      let title := pyStr (pyOr (g "name") (.str "[Untitled]"))
      let raw_messages : List Json :=
        match pyOr (g "chat_messages") (.arr []) with
        | .arr l => l
        | _ => []
      let messages0 := raw_messages.filterMap (claudeMessage created now)
      let messages := messages0.mergeSort fun a b =>
        decide (dtInstant a.created ≤ dtInstant b.created)
      let created' :=
        match messages.head? with
        | some m0 => pyMinDT created m0.created
        | none => created
      let updated' :=
        match messages.getLast? with
        | some ml => pyMaxDT updated ml.created
        | none => updated
      some { id := conversation_id, provider := "claude", title := title,
             created := created', updated := updated', messages := messages }
  | _ => none

/-- `parse_claude_export` (the file's decoded JSON value stands in for the
opened file). -/
def parse_claude_export (raw : Json) (now : PyDateTime) :
    Except PyErr (List ConversationRecord) := do
  let items ← pyIter raw
  pure (items.filterMap fun rc => parse_claude_conversation rc now)

/-! ## `parse_gemini_export`

The `ValidationReport` threaded through the Python Gemini parser only
accumulates unrecognized-key observations for logging; it never alters the
parsed records, so the embedding omits it. -/

/-- `_parse_gemini_inline_data`. -/
def parse_gemini_inline_data (inline_data : List (String × Json))
    (source : String) : Option ContentBlock :=
  let mime := (string_or_none ((dictGet "mimeType" inline_data).getD .null)).getD ""
  let data_b64 := (string_or_none ((dictGet "data" inline_data).getD .null)).getD ""
  let data_uri : Json :=
    if data_b64 ≠ "" then .str ("data:" ++ mime ++ ";base64," ++ data_b64) else .null
  if pyStartsWith mime "image/" then
    some { type := "inline_image", text := "[Inline Image]",
           data := [("mime_type", .str mime), ("data_uri", data_uri),
                    ("source", .str source)] }
  else if pyStartsWith mime "audio/" then
    some { type := "inline_audio", text := "[Inline Audio]",
           data := [("mime_type", .str mime), ("data_uri", data_uri),
                    ("source", .str source)] }
  else none

/-- One `[footnote] [title](uri)` line of `_parse_gemini_grounding`. -/
def geminiCitationLine (entry : List (String × Json)) : Option String :=
  let uri := (string_or_none ((dictGet "uri" entry).getD .null)).getD ""
  let title := (string_or_none ((dictGet "title" entry).getD .null)).getD uri
  let footnote := (dictGet "footnoteNumber" entry).getD .null
  if uri ≠ "" then
    let pre := match footnote with
      | .null => ""
      | v => "[" ++ pyStr v ++ "] "
    some (pre ++ "[" ++ title ++ "](" ++ uri ++ ")")
  else none

/-- `_parse_gemini_grounding`. -/
def parse_gemini_grounding (grounding : List (String × Json)) : Option ContentBlock :=
  let fromSegments :=
    match (dictGet "corroborationSegments" grounding).getD .null with
    | .arr l => l.filterMap fun seg =>
        match seg with
        | .obj skvs => geminiCitationLine skvs
        | _ => none
    | _ => []
  let fromSources :=
    match (dictGet "groundingSources" grounding).getD .null with
    | .arr l => l.filterMap fun src =>
        match src with
        | .obj skvs => geminiCitationLine skvs
        | _ => none
    | _ => []
  let fromQueries :=
    match (dictGet "webSearchQueries" grounding).getD .null with
    | .arr l => l.filterMap fun q =>
        match q with
        | .str s => if pyStrip s ≠ "" then some ("Search: " ++ pyStrip s) else none
        | _ => none
    | _ => []
  let text_parts := fromSegments ++ fromSources ++ fromQueries
  if text_parts.isEmpty then none
  else some { type := "grounding", text := pyJoin "\n" text_parts, data := [] }

/-- Accumulator state for the parts loop of `_parse_gemini_chunk`. -/
structure GemAcc where
  blocks : List ContentBlock
  textAcc : List String
  thoughtAcc : List String

/-- `_flush_text`: merge accumulated text fragments (single space inserted
only between an alphabetic final character and an alphabetic initial
character) and emit one text block. -/
def gemFlushText (st : GemAcc) : GemAcc :=
  match st.textAcc with
  | [] => st
  | first :: rest =>
    let merged := rest.foldl (fun merged fragment =>
      let sep : Bool :=
        merged != "" && fragment != "" &&
        (match merged.data.getLast?, fragment.data.head? with
         | some lc, some fc => pyIsAlpha lc && pyIsAlpha fc
         | _, _ => false)
      (if sep then merged ++ " " else merged) ++ fragment) first
    { st with
      blocks := st.blocks ++ [{ type := "text", text := pyStrip merged, data := [] }],
      textAcc := [] }

/-- `_flush_thought`: emit accumulated thoughts as one thinking block. -/
def gemFlushThought (st : GemAcc) : GemAcc :=
  match st.thoughtAcc with
  | [] => st
  | l =>
    { st with
      blocks := st.blocks ++ [{ type := "thinking", text := pyJoin "\n\n" l, data := [] }],
      thoughtAcc := [] }

/-- `_flush_all`. -/
def gemFlushAll (st : GemAcc) : GemAcc :=
  gemFlushText (gemFlushThought st)

/-- The parts-loop body of `_parse_gemini_chunk`. -/
def gemPartStep (st : GemAcc) (part : Json) : GemAcc :=
  match part with
  | .obj pkvs =>
    let part_text := (string_or_none ((dictGet "text" pkvs).getD .null)).getD ""
    let is_thought := truthy ((dictGet "thought" pkvs).getD .null)
    let st1 :=
      if is_thought ∧ pyStrip part_text ≠ "" then
        let st' := gemFlushText st
        { st' with thoughtAcc := st'.thoughtAcc ++ [pyStrip part_text] }
      else if pyStrip part_text ≠ "" then
        let st' := gemFlushThought st
        { st' with textAcc := st'.textAcc ++ [part_text] }
      else st
    match (dictGet "inlineData" pkvs).getD .null with
    | .obj ikvs =>
      let st2 := gemFlushAll st1
      (match parse_gemini_inline_data ikvs "part_inlineData" with
       | some b => { st2 with blocks := st2.blocks ++ [b] }
       | none => st2)
    | _ => st1
  | _ => st

/-- `_parse_gemini_chunk` (validation reporting omitted — it does not affect
the returned blocks). -/
def parse_gemini_chunk (chunk : List (String × Json)) : List ContentBlock :=
  let g := fun k => (dictGet k chunk).getD Json.null
  let fromParts : List ContentBlock :=
    match g "parts" with
    | .arr parts => (gemFlushAll (parts.foldl gemPartStep ⟨[], [], []⟩)).blocks
    | _ => []
  let blocks1 :=
    if fromParts.isEmpty then
      match string_or_none (g "text") with
      | some s => [{ type := "text", text := pyStrip s, data := ([] : List (String × Json)) }]
      | none => []
    else fromParts
  let blocks2 := blocks1 ++
    (match g "inlineImage" with
     | .obj ikvs =>
       let mime := (string_or_none ((dictGet "mimeType" ikvs).getD .null)).getD "image/png"
       let data_b64 := (string_or_none ((dictGet "data" ikvs).getD .null)).getD ""
       let data_uri : Json :=
         if data_b64 ≠ "" then .str ("data:" ++ mime ++ ";base64," ++ data_b64) else .null
       [{ type := "inline_image", text := "[Generated Image]",
          data := [("mime_type", .str mime), ("data_uri", data_uri),
                   ("source", .str "inlineImage")] }]
     | _ => [])
  let blocks3 := blocks2 ++
    (match g "inlineAudio" with
     | .obj ikvs =>
       let mime := (string_or_none ((dictGet "mimeType" ikvs).getD .null)).getD "audio/wav"
       let data_b64 := (string_or_none ((dictGet "data" ikvs).getD .null)).getD ""
       let data_uri : Json :=
         if data_b64 ≠ "" then .str ("data:" ++ mime ++ ";base64," ++ data_b64) else .null
       [{ type := "inline_audio", text := "[Audio Input]",
          data := [("mime_type", .str mime), ("data_uri", data_uri),
                   ("source", .str "inlineAudio")] }]
     | _ => [])
  let blocks4 := blocks3 ++
    (match g "inlineData" with
     | .obj ikvs =>
       (match parse_gemini_inline_data ikvs "chunk_inlineData" with
        | some b => [b]
        | none => [])
     | _ => [])
  let blocks5 := blocks4 ++
    (match g "driveImage" with
     | .obj dkvs =>
       let drive_id := (string_or_none ((dictGet "id" dkvs).getD .null)).getD ""
       [{ type := "drive_document", text := "[Drive Image]",
          data := [("id", .str drive_id), ("kind", .str "image")] }]
     | _ => [])
  let blocks6 := blocks5 ++
    (match g "driveAudio" with
     | .obj dkvs =>
       let drive_id := (string_or_none ((dictGet "id" dkvs).getD .null)).getD ""
       [{ type := "drive_document", text := "[Drive Audio]",
          data := [("id", .str drive_id), ("kind", .str "audio")] }]
     | _ => [])
  let blocks7 := blocks6 ++
    (match g "driveDocument" with
     | .obj dkvs =>
       let doc_name := (string_or_none ((dictGet "name" dkvs).getD .null)).getD "[Drive Document]"
       [{ type := "drive_document", text := "[Drive Document] " ++ doc_name,
          data := (dictItems dkvs).filter fun p =>
            match p.2 with
            | .str _ => true
            | .num _ => true
            | .bool _ => true
            | _ => false }]
     | _ => [])
  let blocks8 := blocks7 ++
    (match g "driveVideo" with
     | .obj dkvs =>
       let video_name := (string_or_none ((dictGet "name" dkvs).getD .null)).getD "[Drive Video]"
       [{ type := "drive_video", text := "[Drive Video] " ++ video_name,
          data := (dictItems dkvs).filter fun p =>
            match p.2 with
            | .str _ => true
            | .num _ => true
            | .bool _ => true
            | _ => false }]
     | _ => [])
  blocks8 ++
    (match g "grounding" with
     | .obj gkvs =>
       (match parse_gemini_grounding gkvs with
        | some b => [b]
        | none => [])
     | _ => [])

/-- `_extract_gemini_model`. -/
def extract_gemini_model (run_settings : Json) : Option String :=
  match run_settings with
  | .obj kvs =>
    (match string_or_none ((dictGet "model" kvs).getD .null) with
     | none => none
     | some raw =>
       if pyStartsWith raw "models/" then some ⟨raw.data.drop 7⟩ else some raw)
  | _ => none

/-- `_extract_gemini_system_text`. -/
def extract_gemini_system_text (raw_conversation : List (String × Json)) :
    Option String :=
  match (dictGet "systemInstruction" raw_conversation).getD .null with
  | .str s => if pyStrip s ≠ "" then some (pyStrip s) else none
  | .obj sikvs =>
    (match (dictGet "parts" sikvs).getD .null with
     | .arr l =>
       let texts := l.filterMap fun part =>
         match part with
         | .obj pkvs => string_or_none ((dictGet "text" pkvs).getD .null)
         | _ => none
       if texts.isEmpty then none else some (pyJoin "\n" texts)
     | _ => none)
  | _ => none

/-- The chunk loop of `parse_gemini_export` (index-carrying recursion over
`enumerate(chunks)`). -/
def geminiChunkMessages (conversation_id : String) (model_name : Option String)
    (created : PyDateTime) : Nat → List Json → Except PyErr (List MessageRecord)
  | _, [] => .ok []
  | i, ch :: rest =>
    match ch with
    | .obj ckvs => do
      let raw_role := string_or_none ((dictGet "role" ckvs).getD .null)
      let is_user :=
        if raw_role = some "user" then true
        else if raw_role = some "model" then false
        else truthy ((dictGet "isUser" ckvs).getD (.bool false))
      let role := if is_user then "user" else "assistant"
      let message_id := conversation_id ++ "-" ++ toString i
      let message_created ← dtAddSeconds created i
      let content_blocks := parse_gemini_chunk ckvs
      let tail ← geminiChunkMessages conversation_id model_name created (i + 1) rest
      if content_blocks.isEmpty then pure tail
      else
        pure ({ id := message_id, provider := "gemini", role := role,
                created := message_created, updated := none,
                model := if is_user then Json.null else optToJson Json.str model_name,
                content := content_blocks } :: tail)
    | _ => geminiChunkMessages conversation_id model_name created (i + 1) rest

/-- The per-conversation body of `parse_gemini_export`. -/
def parse_gemini_conversation (raw : Json) (now : PyDateTime) :
    Except PyErr (Option ConversationRecord) :=
  match raw with
  | .obj rkvs => do
    let g := fun k => (dictGet k rkvs).getD Json.null
    let conversation_id := pyStrip (pyStr (pyOr (g "id") (.str "")))
    if conversation_id = "" then pure none
    else do
      let title := pyStr (pyOr (g "title") (.str "[Untitled]"))
      let created ← parse_unix_datetime (g "create_time") none now
      let updated ← parse_unix_datetime (g "update_time") (some created) now
      let model_name := extract_gemini_model (g "runSettings")
      let chunksJ :=
        match g "chunkedPrompt" with
        | .obj cp => pyOr ((dictGet "chunks" cp).getD .null) (.arr [])
        | _ => pyOr (g "chunks") (.arr [])
      let chunks : List Json :=
        match chunksJ with
        | .arr l => l
        | _ => []
      if chunks.isEmpty ∧ (dictGet "imagenPrompt" rkvs).isSome then pure none
      else do
        let systemMsgs : List MessageRecord :=
          match extract_gemini_system_text rkvs with
          | some system_text =>
            [{ id := conversation_id ++ "-system", provider := "gemini",
               role := "system", created := created, updated := none,
               model := optToJson Json.str model_name,
               content := [{ type := "text", text := system_text, data := [] }] }]
          | none => []
        let chunkMsgs ← geminiChunkMessages conversation_id model_name created 0 chunks
        let messages := systemMsgs ++ chunkMsgs
        let non_system := messages.filter fun m => m.role ≠ "system"
        let created' :=
          if messages.isEmpty then created
          else match non_system.head? with
            | some m0 => pyMinDT created m0.created
            | none => created
        let updated' :=
          if messages.isEmpty then updated
          else match non_system.getLast? with
            | some ml => pyMaxDT updated ml.created
            | none => updated
        pure (some { id := conversation_id, provider := "gemini", title := title,
                     created := created', updated := updated', messages := messages })
  | _ => pure none

/-- The conversation loop of `parse_gemini_export`. -/
def geminiConversations (now : PyDateTime) :
    List Json → Except PyErr (List ConversationRecord)
  | [] => .ok []
  | rc :: rest => do
    let c ← parse_gemini_conversation rc now
    let tail ← geminiConversations now rest
    match c with
    | some conv => .ok (conv :: tail)
    | none => .ok tail

/-- `parse_gemini_export`: a non-list top level is reported as a warning and
yields an empty result (no exception). -/
def parse_gemini_export (raw : Json) (now : PyDateTime) :
    Except PyErr (List ConversationRecord) :=
  match raw with
  | .arr l => geminiConversations now l
  | _ => .ok []

/-! ## `load_provider_conversations` -/

/-- `if path and path.exists(): conversations.extend(parser(path))` for one
provider: a present file is parsed, an absent one contributes nothing.  In
`load_provider_conversations` each argument is `some` decoded JSON when the
provider's path is given and the file exists, `none` when the path is
`None` or missing; the combined list is sorted by creation time descending
(Python's stable `list.sort(key=..., reverse=True)`). -/
def providerConversations
    (parse : Json → PyDateTime → Except PyErr (List ConversationRecord))
    (o : Option Json) (now : PyDateTime) :
    Except PyErr (List ConversationRecord) :=
  match o with
  | some raw => parse raw now
  | none => .ok []

def load_provider_conversations (chatgpt_raw claude_raw gemini_raw : Option Json)
    (now : PyDateTime) : Except PyErr (List ConversationRecord) := do
  let l1 ← providerConversations parse_chatgpt_export chatgpt_raw now
  let l2 ← providerConversations parse_claude_export claude_raw now
  let l3 ← providerConversations parse_gemini_export gemini_raw now
  pure ((l1 ++ l2 ++ l3).mergeSort fun a b =>
    decide (dtInstant b.created ≤ dtInstant a.created))

/-! ## General-purpose lemmas -/

theorem except_bind_ok {ε α β : Type} {x : Except ε α} {f : α → Except ε β} {b : β} :
    (x >>= f) = .ok b ↔ ∃ a, x = .ok a ∧ f a = .ok b := by
  cases x with
  | ok a => simp [Bind.bind, Except.bind]
  | error e =>
    constructor
    · intro h
      exact absurd h (by simp [Bind.bind, Except.bind])
    · rintro ⟨a, ha, _⟩
      exact absurd ha (by simp)

theorem replaceChars_nil {pat repl : List Char} : replaceChars pat repl [] = [] := by
  rw [replaceChars.eq_def]

theorem replaceChars_cons {pat repl : List Char} {c : Char} {rest : List Char} :
    replaceChars pat repl (c :: rest) =
      if pat ≠ [] ∧ headOccurs pat (c :: rest) then
        repl ++ replaceChars pat repl ((c :: rest).drop pat.length)
      else c :: replaceChars pat repl rest := by
  rw [replaceChars.eq_def]
  split
  · rename_i h
    exact absurd h (by simp)
  · rename_i c2 rest2 h
    injection h with h1 h2
    subst h1
    subst h2
    exact dite_eq_ite

/-- `subOccurs` characterised as a three-way decomposition. -/
theorem subOccurs_iff {pat l : List Char} :
    subOccurs pat l = true ↔ ∃ pre post, l = pre ++ pat ++ post := by
  induction l with
  | nil =>
    simp only [subOccurs]
    constructor
    · intro h
      exact ⟨[], [], by simp [of_decide_eq_true h]⟩
    · rintro ⟨pre, post, hsplit⟩
      have hlen := congrArg List.length hsplit
      simp only [List.length_nil, List.length_append] at hlen
      have : pat = [] := List.eq_nil_of_length_eq_zero (by omega)
      simp [this]
  | cons c rest ih =>
    simp only [subOccurs, Bool.or_eq_true]
    constructor
    · rintro (h | h)
      · refine ⟨[], (c :: rest).drop pat.length, ?_⟩
        have h2 : (c :: rest).take pat.length = pat := of_decide_eq_true h
        simp only [List.nil_append]
        conv_lhs => rw [← List.take_append_drop pat.length (c :: rest)]
        rw [h2]
      · obtain ⟨pre, post, hsplit⟩ := ih.mp h
        exact ⟨c :: pre, post, by simp [hsplit]⟩
    · rintro ⟨pre, post, hsplit⟩
      cases pre with
      | nil =>
        left
        simp only [List.nil_append] at hsplit
        have : (c :: rest).take pat.length = pat := by
          rw [hsplit, List.take_append_of_le_length (le_refl _)]
          simp
        simpa [headOccurs] using this
      | cons p ps =>
        right
        apply ih.mpr
        refine ⟨ps, post, ?_⟩
        simpa using congrArg List.tail hsplit

/-- A pattern that does not occur is left untouched by `replaceChars`. -/
theorem replaceChars_of_not_occurs {pat repl : List Char} :
    ∀ {l : List Char}, subOccurs pat l = false → replaceChars pat repl l = l := by
  intro l
  induction l with
  | nil => intro _; exact replaceChars_nil
  | cons c rest ih =>
    intro h
    simp only [subOccurs, Bool.or_eq_false_iff] at h
    rw [replaceChars_cons, if_neg, ih h.2]
    rintro ⟨hne, hhead⟩
    rw [h.1] at hhead
    exact absurd hhead (by simp)

/-- Replacing an occurring pattern leaves the replacement as a factor. -/
theorem replaceChars_contains_repl {pat repl : List Char} (hne : pat ≠ []) :
    ∀ {l : List Char}, subOccurs pat l = true →
      ∃ pre post, replaceChars pat repl l = pre ++ repl ++ post := by
  intro l
  induction l with
  | nil =>
    intro h
    simp only [subOccurs, decide_eq_true_eq] at h
    exact absurd h hne
  | cons c rest ih =>
    intro h
    rw [replaceChars_cons]
    by_cases hh : headOccurs pat (c :: rest)
    · rw [if_pos ⟨hne, hh⟩]
      exact ⟨[], replaceChars pat repl ((c :: rest).drop pat.length), by simp⟩
    · rw [if_neg (by rintro ⟨_, h2⟩; exact hh h2)]
      simp only [subOccurs, Bool.or_eq_true] at h
      rcases h with h | h
      · exact absurd h hh
      · obtain ⟨pre, post, heq⟩ := ih h
        exact ⟨c :: pre, post, by simp [heq]⟩

theorem subOccurs_of_factor {pat pre post l : List Char}
    (h : l = pre ++ pat ++ post) : subOccurs pat l = true :=
  subOccurs_iff.mpr ⟨pre, post, h⟩

/-- Membership in a non-empty string implies the string is non-empty. -/
theorem ne_empty_of_contains {s pat : String} (hpat : pat ≠ "")
    (h : strContains s pat = true) : s ≠ "" := by
  intro hs
  subst hs
  simp only [strContains, subOccurs, decide_eq_true_eq] at h
  exact hpat (by cases pat with
    | mk data => cases data with
      | nil => rfl
      | cons c cs => exact absurd h (by simp))

/-! ## Claim theorems -/

/-- C8: `_extract_text` is bounded and total: beyond depth 5 it returns the
empty string; on lists it examines at most the first 12 items (the result
only depends on them); on dicts it examines at most the first 16 keys of
the priority ordering, with structural keys skipped (the result only
depends on the values of the non-skipped keys among those 16).  Totality
holds by construction: `extract_text` is a total function. -/
theorem c8_extract_text_bounded :
    (∀ (v : Json) (d : Nat), d > 5 → extract_text v d = "") ∧
    (∀ (l : List Json) (d : Nat),
      extract_text (.arr l) d = extract_text (.arr (l.take 12)) d) ∧
    (∀ (kvs kvs' : List (String × Json)) (d : Nat),
      dictKeys kvs = dictKeys kvs' →
      (∀ k ∈ (extractPriorityKeys ++
          (dictKeys kvs).filter (fun k => k ∉ extractPriorityKeys)).take 16,
        k ∉ extractSkippedKeys → dictGet k kvs = dictGet k kvs') →
      extract_text (.obj kvs) d = extract_text (.obj kvs') d) := by
  have hdepth : ∀ (v : Json) (d : Nat), d > 5 → extract_text v d = "" := by
    intro v d h
    rw [extract_text.eq_def, dif_pos h]
  refine ⟨hdepth, ?_, ?_⟩
  · intro l d
    by_cases h : d > 5
    · rw [hdepth _ _ h, hdepth _ _ h]
    · conv_lhs => rw [extract_text.eq_def]
      conv_rhs => rw [extract_text.eq_def]
      rw [dif_neg h, dif_neg h]
      simp [List.take_take]
  · intro kvs kvs' d hkeys hvals
    by_cases h : d > 5
    · rw [hdepth _ _ h, hdepth _ _ h]
    · conv_lhs => rw [extract_text.eq_def]
      conv_rhs => rw [extract_text.eq_def]
      rw [dif_neg h, dif_neg h]
      simp only [← hkeys]
      congr 2
      apply List.foldl_ext
      intro acc k hk
      by_cases hsk : k ∈ extractSkippedKeys
      · simp [hsk]
      · rw [if_neg hsk, if_neg hsk, hvals k hk hsk]

/-- Witness for C8: a dictionary with seven non-priority keys; the value of
the seventh (which falls outside the first 16 examined keys) does not
affect the result. -/
theorem c8_extract_text_bounded_witness :
    extract_text (.str "x") 6 = "" ∧
    extract_text
      (.obj [("k1", .str "a1"), ("k2", .str "a2"), ("k3", .str "a3"),
             ("k4", .str "a4"), ("k5", .str "a5"), ("k6", .str "a6"),
             ("k7", .str "AAA")]) 0 =
    extract_text
      (.obj [("k1", .str "a1"), ("k2", .str "a2"), ("k3", .str "a3"),
             ("k4", .str "a4"), ("k5", .str "a5"), ("k6", .str "a6"),
             ("k7", .str "BBB")]) 0 := by
  constructor
  · exact c8_extract_text_bounded.1 (.str "x") 6 (by decide)
  · exact c8_extract_text_bounded.2.2 _ _ 0 (by decide)
      (by intro k hk hsk; fin_cases hk <;> rfl)

theorem stripChars_idem (l : List Char) :
    stripChars (stripChars l) = stripChars l :=
  stripChars_eq_self (stripChars_head_not_space l) (stripChars_getLast_not_space l)

theorem pyStrip_idem (s : String) : pyStrip (pyStrip s) = pyStrip s :=
  congrArg String.mk (stripChars_idem s.data)

theorem pyJoin_head_data (sep p : String) (rest : List String) :
    ∃ t, (pyJoin sep (p :: rest)).data = p.data ++ t := by
  suffices h : ∀ (rest : List String) (acc : String),
      ∃ t, (rest.foldl (fun acc q => acc ++ sep ++ q) acc).data = acc.data ++ t by
    simpa [pyJoin] using h rest p
  intro rest
  induction rest with
  | nil => intro acc; exact ⟨[], by simp⟩
  | cons q qs ih =>
    intro acc
    obtain ⟨t, ht⟩ := ih (acc ++ sep ++ q)
    refine ⟨sep.data ++ q.data ++ t, ?_⟩
    simp only [List.foldl_cons, ht, String.data_append]
    simp

theorem pyJoin_last_data (sep : String) (parts : List String) (hne : parts ≠ []) :
    ∃ t q, q ∈ parts ∧ (pyJoin sep parts).data = t ++ q.data := by
  cases parts with
  | nil => exact absurd rfl hne
  | cons p rest =>
    suffices h : ∀ (rest : List String) (acc : String),
        ∃ t q, (q ∈ rest ∨ q = acc) ∧
          (rest.foldl (fun acc q => acc ++ sep ++ q) acc).data = t ++ q.data by
      obtain ⟨t, q, hq, hdata⟩ := h rest p
      refine ⟨t, q, ?_, by simpa [pyJoin] using hdata⟩
      rcases hq with hq | hq
      · exact List.mem_cons_of_mem _ hq
      · rw [hq]; exact List.mem_cons_self _ _
    intro rest
    induction rest with
    | nil => intro acc; exact ⟨[], acc, Or.inr rfl, by simp⟩
    | cons q qs ih =>
      intro acc
      obtain ⟨t, q', hq', hdata⟩ := ih (acc ++ sep ++ q)
      rcases hq' with hq' | hq'
      · exact ⟨t, q', Or.inl (List.mem_cons_of_mem _ hq'), by simpa using hdata⟩
      · refine ⟨t ++ (acc ++ sep).data, q, Or.inl (List.mem_cons_self _ _), ?_⟩
        rw [hq'] at hdata
        simp only [List.foldl_cons]
        rw [hdata]
        simp [String.data_append]

/-- Joining non-empty already-stripped parts yields an already-stripped
string, so the outer `strip()` in `MessageRecord.text` is the identity. -/
theorem pyStrip_join_stripped (parts : List String)
    (h : ∀ p ∈ parts, p ≠ "" ∧ pyStrip p = p) :
    pyStrip (pyJoin "\n\n" parts) = pyJoin "\n\n" parts := by
  cases hp : parts with
  | nil => rfl
  | cons p rest =>
    apply congrArg String.mk
    apply stripChars_eq_self
    · intro c hc
      obtain ⟨t, ht⟩ := pyJoin_head_data "\n\n" p rest
      rw [ht] at hc
      have hpne := (h p (by rw [hp]; exact List.mem_cons_self _ _)).1
      have hpstrip := (h p (by rw [hp]; exact List.mem_cons_self _ _)).2
      have hpdata : p.data ≠ [] := fun hnil => hpne (by
        cases p with
        | mk d => simp at hnil; rw [hnil])
      cases hd : p.data with
      | nil => exact absurd hd hpdata
      | cons c0 cs =>
        rw [hd] at hc
        simp only [List.cons_append, List.head?_cons, Option.some.injEq] at hc
        subst hc
        apply stripChars_head_not_space p.data
        have : stripChars p.data = p.data := congrArg String.data hpstrip
        rw [this, hd]
        rfl
    · intro c hc
      obtain ⟨t, q, hqmem, ht⟩ := pyJoin_last_data "\n\n" (p :: rest) (by simp)
      rw [ht] at hc
      have hqne := (h q (by rw [hp]; exact hqmem)).1
      have hqstrip := (h q (by rw [hp]; exact hqmem)).2
      have hqdata : q.data ≠ [] := fun hnil => hqne (by
        cases q with
        | mk d => simp at hnil; rw [hnil])
      rw [List.getLast?_append] at hc
      cases hq : q.data.getLast? with
      | none => exact absurd (List.getLast?_eq_none_iff.mp hq) hqdata
      | some c' =>
        rw [hq] at hc
        simp only [Option.or] at hc
        injection hc with hc
        subst hc
        apply stripChars_getLast_not_space q.data
        have : stripChars q.data = q.data := congrArg String.data hqstrip
        rw [this]
        exact hq

/-- The visibility rule exactly as the claim words it: after the
system-role gate, keep the blocks whose *type* is not suppressed by the
four flags (no role-based suppression for tool messages).  Stated for
comparison with `iter_visible_blocks`. -/
def claim_visible_blocks (m : MessageRecord)
    (include_system include_tool include_thinking include_attachments : Bool) :
    List ContentBlock :=
  if ¬ include_system ∧ m.role = "system" then []
  else
    m.content.filter fun block =>
      ¬ (¬ include_thinking ∧ block.type ∈ THINKING_BLOCK_TYPES) ∧
      ¬ (¬ include_tool ∧ block.type ∈ TOOL_BLOCK_TYPES) ∧
      ¬ (¬ include_attachments ∧ block.type ∈ ATTACHMENT_BLOCK_TYPES) ∧
      ¬ (¬ include_system ∧ block.type ∈ SYSTEM_BLOCK_TYPES)

def c7msg : MessageRecord :=
  { id := "m", provider := "claude", role := "tool", created := ⟨0, some 0⟩,
    updated := none, model := .null, content := [⟨"text", "hi", []⟩] }

/-- C7 counterexample: a `tool`-role message with a plain `text` block.
With `include_tool = False` the code suppresses every block of the message
(role-based), while the claim's "blocks whose type is not suppressed"
keeps the `text` block: the two differ. -/
theorem c7_counterexample :
    iter_visible_blocks c7msg true false true true = [] ∧
    claim_visible_blocks c7msg true false true true = [⟨"text", "hi", []⟩] :=
  ⟨rfl, rfl⟩

/-- C7 amended: visibility filtering applies role-level suppression first
(`include_system=False` hides a whole system message, and — missing from
the claim — `include_tool=False` hides every block of a `tool`-role
message); otherwise exactly the blocks whose type survives the four flags
remain, in order.  `text()` is the double-newline join of the stripped
non-empty texts of the visible blocks (its trailing `.strip()` is the
identity on that join). -/
theorem c7_visibility_amended :
    ∀ (m : MessageRecord) (isys itool ithink iatt : Bool),
      (iter_visible_blocks m isys itool ithink iatt =
        if ¬ itool ∧ m.role = "tool" then []
        else claim_visible_blocks m isys itool ithink iatt) ∧
      message_text m isys itool ithink iatt =
        pyJoin "\n\n" (((iter_visible_blocks m isys itool ithink iatt).map
          fun b => pyStrip b.text).filter fun p => p ≠ "") := by
  intro m isys itool ithink iatt
  constructor
  · unfold iter_visible_blocks claim_visible_blocks
    by_cases hsys : ¬ isys ∧ m.role = "system"
    · rw [if_pos hsys]
      by_cases htool : ¬ itool ∧ m.role = "tool"
      · rw [if_pos htool]
      · rw [if_neg htool, if_pos hsys]
    · rw [if_neg hsys]
      by_cases htool : ¬ itool ∧ m.role = "tool"
      · rw [if_pos htool]
        apply List.filter_eq_nil_iff.mpr
        intro b hb
        simp only [decide_eq_true_eq]
        rintro ⟨-, h2, -, -⟩
        exact h2 ⟨htool.1, Or.inr htool.2⟩
      · rw [if_neg htool, if_neg hsys]
        apply List.filter_congr
        intro b hb
        simp only [decide_eq_decide]
        constructor
        · intro h
          exact ⟨h.1, fun hc => h.2.1 ⟨hc.1, Or.inl hc.2⟩, h.2.2⟩
        · intro h
          refine ⟨h.1, ?_, h.2.2⟩
          rintro ⟨hit, hty | hrole⟩
          · exact h.2.1 ⟨hit, hty⟩
          · exact htool ⟨hit, hrole⟩
  · unfold message_text
    apply pyStrip_join_stripped
    intro p hp
    simp only [List.mem_filter, List.mem_map] at hp
    obtain ⟨⟨b, hb, hbp⟩, hpne⟩ := hp
    refine ⟨by simpa using hpne, ?_⟩
    rw [← hbp]
    exact pyStrip_idem b.text

def c2chunkHel : List (String × Json) :=
  [("parts", .arr [.obj [("text", .str "Hel")], .obj [("text", .str "lo ")],
                   .obj [("text", .str "world")]])]

/-- C2 counterexample: the chunk with text fragments "Hel", "lo ", "world"
yields the single text block "Hel lo world" — the boundary-space rule fires
between "Hel" (ends alphabetic) and "lo " (starts alphabetic) — not the
"Hello world" the claim asserts. -/
theorem c2_counterexample :
    parse_gemini_chunk c2chunkHel = [⟨"text", "Hel lo world", []⟩] ∧
    "Hel lo world" ≠ "Hello world" :=
  ⟨rfl, by decide⟩

theorem ne_empty_of_strip_ne_empty {s : String} (h : pyStrip s ≠ "") : s ≠ "" := by
  intro hs
  subst hs
  exact h rfl

/-- C2 amended: consecutive non-thought text parts merge into a single text
block by direct concatenation with a single space inserted exactly when the
preceding fragment ends with an alphabetic character and the following one
begins with one — so "Hel", "lo ", "world" yield "Hel lo world" (not
"Hello world": the rule inserts a space at the "Hel"/"lo " boundary);
consecutive thought parts merge into one thinking block joined by a blank
line; and a thought part interleaved between text parts forces a flush,
producing a separate thinking block between two text blocks. -/
theorem c2_fragment_coalescing_amended :
    parse_gemini_chunk c2chunkHel = [⟨"text", "Hel lo world", []⟩] ∧
    (∀ a b : String, pyStrip a ≠ "" → pyStrip b ≠ "" →
      parse_gemini_chunk
          [("parts", .arr [.obj [("text", .str a)], .obj [("text", .str b)]])] =
        [⟨"text",
          pyStrip ((if (match a.data.getLast?, b.data.head? with
              | some lc, some fc => pyIsAlpha lc && pyIsAlpha fc
              | _, _ => false) then a ++ " " else a) ++ b), []⟩]) ∧
    parse_gemini_chunk
        [("parts", .arr [.obj [("text", .str "A"), ("thought", .bool true)],
                         .obj [("text", .str "B"), ("thought", .bool true)]])] =
      [⟨"thinking", "A\n\nB", []⟩] ∧
    parse_gemini_chunk
        [("parts", .arr [.obj [("text", .str "x")],
                         .obj [("text", .str "t"), ("thought", .bool true)],
                         .obj [("text", .str "y")]])] =
      [⟨"text", "x", []⟩, ⟨"thinking", "t", []⟩, ⟨"text", "y", []⟩] := by
  refine ⟨rfl, ?_, rfl, rfl⟩
  intro a b ha hb
  have ha' : a ≠ "" := ne_empty_of_strip_ne_empty ha
  have hb' : b ≠ "" := ne_empty_of_strip_ne_empty hb
  have h1 : gemPartStep ⟨[], [], []⟩ (.obj [("text", .str a)]) = ⟨[], [a], []⟩ := by
    unfold gemPartStep
    simp [dictGet, string_or_none, ha, truthy, gemFlushThought]
  have h2 : gemPartStep ⟨[], [a], []⟩ (.obj [("text", .str b)]) = ⟨[], [a, b], []⟩ := by
    unfold gemPartStep
    simp [dictGet, string_or_none, hb, truthy, gemFlushThought]
  have hba : (a != "") = true := by simp [ha']
  have hbb : (b != "") = true := by simp [hb']
  have hparts : (dictGet "parts"
      [("parts", Json.arr [Json.obj [("text", Json.str a)],
        Json.obj [("text", Json.str b)]])]).getD Json.null =
      Json.arr [Json.obj [("text", Json.str a)], Json.obj [("text", Json.str b)]] := rfl
  simp only [parse_gemini_chunk, hparts, List.foldl_cons, List.foldl_nil, h1, h2,
    gemFlushAll, gemFlushThought, gemFlushText]
  simp only [hba, hbb, Bool.true_and]
  rfl

/-- Witness for the amended C2: two alphabetic fragments get the boundary
space. -/
theorem c2_fragment_coalescing_amended_witness :
    parse_gemini_chunk
        [("parts", .arr [.obj [("text", .str "ab")], .obj [("text", .str "cd")]])] =
      [⟨"text", "ab cd", []⟩] := by
  have h := c2_fragment_coalescing_amended.2.1 "ab" "cd" (by decide) (by decide)
  exact h.trans rfl

def now0 : PyDateTime := ⟨0, some 0⟩

/-- C5 counterexample: the Gemini parser, given a non-list top level,
returns an empty list instead of raising — the claim's "raises a fatal
error if and only if the top-level JSON structure is not a list" fails in
the "if" direction. -/
theorem c5_counterexample :
    parse_gemini_export (.bool true) now0 = .ok [] ∧
    parse_gemini_export (.num 7) now0 = .ok [] ∧
    parse_gemini_export (.obj [("x", .null)]) now0 = .ok [] :=
  ⟨rfl, rfl, rfl⟩

/-- C5 amended: malformed individual conversation entries (non-dicts,
missing ids) are skipped without affecting the remaining entries, and
malformed message entries are skipped likewise; the ChatGPT and Claude
parsers raise a fatal `TypeError` when the top level is not iterable (a
number), while the Gemini parser returns an empty list (recording a
warning) for every non-list top level and never raises a fatal load
error. -/
theorem c5_error_handling_amended :
    (∀ now q, parse_chatgpt_export (.num q) now = .error .typeError) ∧
    (∀ now q, parse_claude_export (.num q) now = .error .typeError) ∧
    (∀ now raw, (∀ l, raw ≠ .arr l) → parse_gemini_export raw now = .ok []) ∧
    (∀ now bad rest, parse_chatgpt_conversation bad now = .ok none →
      parse_chatgpt_export (.arr (bad :: rest)) now = parse_chatgpt_export (.arr rest) now) ∧
    (∀ now bad rest, parse_claude_conversation bad now = none →
      parse_claude_export (.arr (bad :: rest)) now = parse_claude_export (.arr rest) now) ∧
    (∀ now bad rest, parse_gemini_conversation bad now = .ok none →
      parse_gemini_export (.arr (bad :: rest)) now = parse_gemini_export (.arr rest) now) ∧
    (∀ now rc, (∀ kvs, rc ≠ .obj kvs) → parse_chatgpt_conversation rc now = .ok none) ∧
    (∀ now kvs, dictGet "id" kvs = none → dictGet "conversation_id" kvs = none →
      parse_chatgpt_conversation (.obj kvs) now = .ok none) ∧
    (∀ created now, claudeMessage created now (.num 7) = none ∧
      claudeMessage created now (.obj []) = none) := by
  refine ⟨fun _ _ => rfl, fun _ _ => rfl, ?_, ?_, ?_, ?_, ?_, ?_, ?_⟩
  · intro now raw h
    cases raw with
    | arr l => exact absurd rfl (h l)
    | null => rfl
    | bool b => rfl
    | num q => rfl
    | str s => rfl
    | obj kvs => rfl
  · intro now bad rest h
    show chatgptConversations now (bad :: rest) = chatgptConversations now rest
    simp only [chatgptConversations, h]
    cases hc : chatgptConversations now rest <;> simp [Bind.bind, Except.bind, hc]
  · intro now bad rest h
    show (Except.ok (List.filterMap (fun rc => parse_claude_conversation rc now) (bad :: rest)) :
        Except PyErr (List ConversationRecord)) = _
    simp only [List.filterMap_cons, h, parse_claude_export, pyIter, Bind.bind, Except.bind]
    rfl
  · intro now bad rest h
    show geminiConversations now (bad :: rest) = geminiConversations now rest
    simp only [geminiConversations, h]
    cases hc : geminiConversations now rest <;> simp [Bind.bind, Except.bind, hc]
  · intro now rc h
    cases rc with
    | obj kvs => exact absurd rfl (h kvs)
    | null => rfl
    | bool b => rfl
    | num q => rfl
    | str s => rfl
    | arr l => rfl
  · intro now kvs h1 h2
    simp only [parse_chatgpt_conversation, h1, h2]
    rfl
  · intro created now
    exact ⟨rfl, rfl⟩

/-- Witness for the amended C5, at concrete malformed inputs. -/
theorem c5_error_handling_amended_witness :
    parse_gemini_export (.num 3) now0 = .ok [] ∧
    parse_chatgpt_export (.arr [.num 1]) now0 = parse_chatgpt_export (.arr []) now0 ∧
    parse_claude_export (.arr [.num 1]) now0 = parse_claude_export (.arr []) now0 ∧
    parse_gemini_export (.arr [.num 1]) now0 = parse_gemini_export (.arr []) now0 ∧
    parse_chatgpt_conversation (.obj [("title", .str "no id")]) now0 = .ok none := by
  refine ⟨c5_error_handling_amended.2.2.1 now0 (.num 3) (fun l h => Json.noConfusion h),
    c5_error_handling_amended.2.2.2.1 now0 (.num 1) [] rfl,
    c5_error_handling_amended.2.2.2.2.1 now0 (.num 1) [] rfl,
    c5_error_handling_amended.2.2.2.2.2.1 now0 (.num 1) [] rfl,
    c5_error_handling_amended.2.2.2.2.2.2.2.1 now0 [("title", .str "no id")] rfl rfl⟩

/-- C6: `load_provider_conversations` tolerates any subset of present
provider files (an absent file contributes nothing and raises nothing),
concatenates the parser outputs of the present files, and returns the
combined list sorted by conversation creation time descending. -/
theorem c6_load_provider_merge :
    (∀ now, load_provider_conversations none none none now = .ok []) ∧
    (∀ (oa ob oc : Option Json) now l1 l2 l3,
      providerConversations parse_chatgpt_export oa now = .ok l1 →
      providerConversations parse_claude_export ob now = .ok l2 →
      providerConversations parse_gemini_export oc now = .ok l3 →
      ∃ res, load_provider_conversations oa ob oc now = .ok res ∧
        res.Perm (l1 ++ l2 ++ l3) ∧
        res.Pairwise (fun a b => dtInstant b.created ≤ dtInstant a.created)) := by
  constructor
  · intro now
    unfold load_provider_conversations providerConversations
    simp [Bind.bind, Except.bind, List.mergeSort_nil, pure, Except.pure]
  · intro oa ob oc now l1 l2 l3 h1 h2 h3
    refine ⟨(l1 ++ l2 ++ l3).mergeSort
      (fun a b => decide (dtInstant b.created ≤ dtInstant a.created)), ?_, ?_, ?_⟩
    · unfold load_provider_conversations
      rw [h1]
      simp only [Bind.bind, Except.bind]
      rw [h2, h3]
      rfl
    · exact List.mergeSort_perm _ _
    · have hp := @List.sorted_mergeSort ConversationRecord
        (fun a b => decide (dtInstant b.created ≤ dtInstant a.created))
        (fun a b c hab hbc => by
          simp only [decide_eq_true_eq] at *
          exact le_trans hbc hab)
        (fun a b => by
          rcases le_total (dtInstant b.created) (dtInstant a.created) with h | h <;>
            simp [h])
        (l1 ++ l2 ++ l3)
      exact hp.imp (fun h => by simpa using h)

/-- Witness for C6 with two of three provider files present. -/
theorem c6_load_provider_merge_witness :
    load_provider_conversations none none none now0 = .ok [] ∧
    ∃ res, load_provider_conversations none (some (.arr [])) (some (.arr [])) now0 = .ok res ∧
      res.Perm ([] ++ [] ++ []) ∧
      res.Pairwise (fun a b => dtInstant b.created ≤ dtInstant a.created) :=
  ⟨c6_load_provider_merge.1 now0,
   c6_load_provider_merge.2 none (some (.arr [])) (some (.arr [])) now0 [] [] [] rfl rfl rfl⟩

/-- C10 counterexample: a numeric `create_time` of `10^18` (a value a JSON
export can contain) makes `_parse_unix_datetime` raise `ValueError`
uncaught (the `int`/`float` branch has no `try`), so it neither returns a
UTC datetime nor the fallback. -/
theorem c10_counterexample :
    parse_unix_datetime (.num ((10 : ℚ) ^ 18)) none now0 = .error .valueError := by
  rfl

theorem fromtimestampUtc_isUtc {q : ℚ} {dt : PyDateTime}
    (h : fromtimestampUtc q = .ok dt) : isUtcAware dt := by
  unfold fromtimestampUtc at h
  split at h
  · exact absurd h (by simp)
  · split at h
    · exact absurd h (by simp)
    · injection h with h
      subst h
      rfl

unseal replaceChars in
/-- C10 amended: both datetime helpers return UTC-aware datetimes and fall
back (to the supplied fallback, else `now`) on absent, wrongly-typed or
unparsable-string input — except that numeric values (or numeric strings
overflowing `time_t`) outside datetime's representable range raise
`ValueError`/`OverflowError` out of `_parse_unix_datetime`. -/
theorem c10_datetime_utc_amended :
    (∀ raw fb now dt, (∀ d, fb = some d → isUtcAware d) → isUtcAware now →
      parse_unix_datetime raw fb now = .ok dt → isUtcAware dt) ∧
    (∀ (q : ℚ) fb now, dtMinSeconds ≤ q → q < dtMaxSecondsExcl →
      parse_unix_datetime (.num q) fb now = .ok ⟨q, some 0⟩) ∧
    (∀ fb now, parse_unix_datetime .null fb now = .ok (fb.getD now) ∧
      parse_unix_datetime (.arr []) fb now = .ok (fb.getD now) ∧
      parse_unix_datetime (.str "not a number") fb now = .ok (fb.getD now)) ∧
    (∀ raw fb now, (∀ d, fb = some d → isUtcAware d) → isUtcAware now →
      isUtcAware (parse_iso_datetime raw fb now)) ∧
    (∀ fb now, parse_iso_datetime .null fb now = fb.getD now ∧
      parse_iso_datetime (.str "garbage") fb now = fb.getD now) := by
  have hgetD : ∀ (fb : Option PyDateTime) (now : PyDateTime),
      (∀ d, fb = some d → isUtcAware d) → isUtcAware now → isUtcAware (fb.getD now) := by
    intro fb now hfb hnow
    cases fb with
    | some d => exact hfb d rfl
    | none => exact hnow
  refine ⟨?_, ?_, ?_, ?_, ?_⟩
  · intro raw fb now dt hfb hnow h
    cases raw with
    | null => injection h with h; rw [← h]; exact hgetD fb now hfb hnow
    | arr l => injection h with h; rw [← h]; exact hgetD fb now hfb hnow
    | obj kvs => injection h with h; rw [← h]; exact hgetD fb now hfb hnow
    | bool b => exact fromtimestampUtc_isUtc h
    | num q => exact fromtimestampUtc_isUtc h
    | str s =>
      simp only [parse_unix_datetime] at h
      rcases hf : pyFloatOfString s with _ | v
      · rw [hf] at h
        injection h with h; rw [← h]; exact hgetD fb now hfb hnow
      · rw [hf] at h
        cases v with
        | finite q =>
          dsimp only at h
          rcases ht : fromtimestampUtc q with e | dt'
          · rw [ht] at h
            cases e with
            | valueError =>
              injection h with h; rw [← h]; exact hgetD fb now hfb hnow
            | typeError => exact absurd h (by simp)
            | overflowError => exact absurd h (by simp)
            | attributeError => exact absurd h (by simp)
          · rw [ht] at h
            injection h with h
            rw [← h]
            exact fromtimestampUtc_isUtc ht
        | inf => exact absurd h (by simp)
        | ninf => exact absurd h (by simp)
        | nan =>
          injection h with h; rw [← h]; exact hgetD fb now hfb hnow
  · intro q fb now h1 h2
    have habs : |q| < 2 ^ 63 := by
      rw [abs_lt]
      simp only [dtMinSeconds] at h1
      simp only [dtMaxSecondsExcl] at h2
      constructor
      · calc (-(2 ^ 63) : ℚ) < -62135596800 := by norm_num
          _ ≤ q := h1
      · calc q < 253402300800 := h2
          _ < 2 ^ 63 := by norm_num
    simp only [parse_unix_datetime, fromtimestampUtc]
    rw [if_neg (not_le.mpr habs), if_neg]
    rw [not_or]
    exact ⟨not_lt.mpr h1, not_le.mpr h2⟩
  · intro fb now
    exact ⟨rfl, rfl, rfl⟩
  · intro raw fb now hfb hnow
    cases raw with
    | str s =>
      simp only [parse_iso_datetime]
      rcases hf : fromisoformat (pyReplace s "Z" "+00:00") with _ | dt
      · exact hgetD fb now hfb hnow
      · dsimp only
        by_cases ho : dt.off = none
        · rw [if_pos ho]; rfl
        · rw [if_neg ho]; rfl
    | null => exact hgetD fb now hfb hnow
    | bool b => exact hgetD fb now hfb hnow
    | num q => exact hgetD fb now hfb hnow
    | arr l => exact hgetD fb now hfb hnow
    | obj kvs => exact hgetD fb now hfb hnow
  · intro fb now
    exact ⟨rfl, rfl⟩

/-- Witness for the amended C10 at concrete inputs. -/
theorem c10_datetime_utc_amended_witness :
    parse_unix_datetime (.num 1700000000) none now0 = .ok ⟨1700000000, some 0⟩ ∧
    isUtcAware (parse_iso_datetime (.str "2024-01-02T03:04:05Z") none now0) := by
  constructor
  · exact c10_datetime_utc_amended.2.1 1700000000 none now0 (by norm_num [dtMinSeconds])
      (by norm_num [dtMaxSecondsExcl])
  · exact c10_datetime_utc_amended.2.2.2.1 (.str "2024-01-02T03:04:05Z") none now0
      (fun d h => by cases h) rfl

theorem firstDedup_nodup (l : List String) : (firstDedup l).Nodup := by
  induction l with
  | nil => exact List.nodup_nil
  | cons x xs ih =>
    simp only [firstDedup]
    refine List.Nodup.cons ?_ (ih.filter _)
    intro hmem
    have := List.of_mem_filter hmem
    simp at this

theorem mem_of_mem_firstDedup {x : String} {l : List String}
    (h : x ∈ firstDedup l) : x ∈ l := by
  induction l with
  | nil => exact absurd h (by simp [firstDedup])
  | cons y ys ih =>
    simp only [firstDedup, List.mem_cons] at h
    rcases h with h | h
    · exact h ▸ List.mem_cons_self _ _
    · exact List.mem_cons_of_mem _ (ih (List.mem_of_mem_filter h))

theorem dictKeys_nodup (kvs : List (String × Json)) : (dictKeys kvs).Nodup :=
  firstDedup_nodup _

theorem dictGet_foldl_mem {k : String} {v : Json} :
    ∀ (kvs : List (String × Json)) (init : Option Json),
      kvs.foldl (fun acc p => if p.1 = k then some p.2 else acc) init = some v →
      (k, v) ∈ kvs ∨ init = some v := by
  intro kvs
  induction kvs with
  | nil => intro init h; exact Or.inr h
  | cons p ps ih =>
    intro init h
    simp only [List.foldl_cons] at h
    rcases ih _ h with hmem | hinit
    · exact Or.inl (List.mem_cons_of_mem _ hmem)
    · by_cases hp : p.1 = k
      · rw [if_pos hp] at hinit
        injection hinit with hv
        left
        have hpv : p = (k, v) := by
          cases p with
          | mk a b => simp only at hp hv; rw [hp, hv]
        rw [← hpv]
        exact List.mem_cons_self _ _
      · rw [if_neg hp] at hinit
        exact Or.inr hinit

theorem dictGet_mem {k : String} {kvs : List (String × Json)} {v : Json}
    (h : dictGet k kvs = some v) : (k, v) ∈ kvs := by
  unfold dictGet at h
  rcases dictGet_foldl_mem kvs none h with hmem | hinit
  · exact hmem
  · exact absurd hinit (by simp)

theorem dictGet_foldl_isSome {k : String} :
    ∀ (kvs : List (String × Json)) (init : Option Json),
      init.isSome ∨ (∃ v, (k, v) ∈ kvs) →
      (kvs.foldl (fun acc p => if p.1 = k then some p.2 else acc) init).isSome := by
  intro kvs
  induction kvs with
  | nil =>
    intro init h
    rcases h with h | ⟨v, hv⟩
    · exact h
    · exact absurd hv (by simp)
  | cons p ps ih =>
    intro init h
    simp only [List.foldl_cons]
    apply ih
    by_cases hp : p.1 = k
    · left; simp [hp]
    · rcases h with h | ⟨v, hv⟩
      · left; simpa [hp] using h
      · rcases List.mem_cons.mp hv with h3 | h3
        · exact absurd (congrArg Prod.fst h3.symm) hp
        · exact Or.inr ⟨v, h3⟩

theorem dictGet_isSome_of_mem {k : String} {v : Json} {kvs : List (String × Json)}
    (h : (k, v) ∈ kvs) : (dictGet k kvs).isSome :=
  dictGet_foldl_isSome kvs none (Or.inr ⟨v, h⟩)

theorem mem_dictKeys_isSome {k : String} {kvs : List (String × Json)}
    (h : k ∈ dictKeys kvs) : (dictGet k kvs).isSome := by
  have h2 := mem_of_mem_firstDedup h
  obtain ⟨p, hp, hfst⟩ := List.mem_map.mp h2
  cases p with
  | mk a b =>
    simp only at hfst
    subst hfst
    exact dictGet_isSome_of_mem hp

/-- Unfolding lemma for the `_build_active_branch_path` while-loop. -/
theorem branchWalk_eq (mapping : List (String × Json)) (remaining : List String)
    (cursor : Json) :
    branchWalk mapping remaining cursor =
      if truthy cursor = false then .ok []
      else if jsonHashable cursor = false then .error .typeError
      else match cursor with
        | .str s =>
          if s ∈ remaining then
            (pyGet ((dictGet s mapping).getD .null) "parent") >>= fun parent =>
            (branchWalk mapping (remaining.erase s) parent) >>= fun tailPath =>
            .ok (s :: tailPath)
          else .ok []
        | _ => .ok [] := by
  rw [branchWalk.eq_def]
  split
  split
  · rfl
  · split
    · rfl
    · split
      · exact dite_eq_ite
      · rename_i hne
        cases cursor with
        | str s => exact absurd rfl (by intro h; exact hne s h)
        | null => rfl
        | bool b => rfl
        | num q => rfl
        | arr l => rfl
        | obj kvs => rfl

/-- The `_build_active_branch_path` walk, started on a duplicate-free set of
unvisited node ids, returns a duplicate-free path of ids drawn from that set. -/
theorem branchWalk_spec : ∀ (n : ℕ) (mapping : List (String × Json))
    (remaining : List String) (cursor : Json) (l : List String),
    remaining.length ≤ n → remaining.Nodup →
    branchWalk mapping remaining cursor = .ok l →
    l.Nodup ∧ l.length ≤ remaining.length ∧ l ⊆ remaining := by
  intro n
  induction n with
  | zero =>
    intro mapping remaining cursor l hn hnd h
    rw [branchWalk_eq] at h
    split at h
    · cases h; exact ⟨List.nodup_nil, by simp, List.nil_subset _⟩
    · split at h
      · exact absurd h (by simp)
      · split at h
        · rename_i s hnt hna
          split at h
          · rename_i hmem
            have := List.length_pos_of_mem hmem
            omega
          · cases h; exact ⟨List.nodup_nil, by simp, List.nil_subset _⟩
        · cases h; exact ⟨List.nodup_nil, by simp, List.nil_subset _⟩
  | succ n ih =>
    intro mapping remaining cursor l hn hnd h
    rw [branchWalk_eq] at h
    split at h
    · cases h; exact ⟨List.nodup_nil, by simp, List.nil_subset _⟩
    · split at h
      · exact absurd h (by simp)
      · split at h
        · rename_i s hnt hna
          split at h
          · rename_i hmem
            rw [except_bind_ok] at h
            obtain ⟨parent, hp, h⟩ := h
            rw [except_bind_ok] at h
            obtain ⟨tailPath, htail, h⟩ := h
            cases h
            have hlen : (remaining.erase s).length = remaining.length - 1 :=
              List.length_erase_of_mem hmem
            have hpos : 0 < remaining.length := List.length_pos_of_mem hmem
            have hnd' : (remaining.erase s).Nodup := hnd.erase s
            obtain ⟨tnd, tlen, tsub⟩ :=
              ih mapping (remaining.erase s) parent tailPath (by omega) hnd' htail
            refine ⟨?_, by simp; omega, ?_⟩
            · refine List.nodup_cons.mpr ⟨fun hmem' => ?_, tnd⟩
              have : s ∈ remaining.erase s := tsub hmem'
              exact absurd ((hnd.mem_erase_iff).mp this).1 (by simp)
            · intro x hx
              rcases List.mem_cons.mp hx with hx | hx
              · exact hx ▸ hmem
              · exact List.erase_subset _ _ (tsub hx)
          · cases h; exact ⟨List.nodup_nil, by simp, List.nil_subset _⟩
        · cases h; exact ⟨List.nodup_nil, by simp, List.nil_subset _⟩

/-- The ids collected by the fallback timestamp scan form a sublist of the
scanned items' keys. -/
theorem branchSortable_sublist : ∀ (items : List (String × Json))
    (l : List (ℚ × String)), branchSortable items = .ok l →
    (l.map Prod.snd).Sublist (items.map Prod.fst) := by
  intro items
  induction items with
  | nil => intro l h; cases h; simp
  | cons item rest ih =>
    intro l h
    simp only [branchSortable] at h
    rw [except_bind_ok] at h
    obtain ⟨message, hm, h⟩ := h
    rw [except_bind_ok] at h
    obtain ⟨tail, htail, h⟩ := h
    have hsub := ih tail htail
    split at h
    · split at h
      · cases h; simp only [List.map_cons]; exact List.Sublist.cons₂ _ hsub
      · cases h; simp only [List.map_cons]; exact List.Sublist.cons₂ _ hsub
      · cases h; simp only [List.map_cons]; exact List.Sublist.cons _ hsub
    · cases h; simp only [List.map_cons]; exact List.Sublist.cons _ hsub

/-- The keys of `dict.items()` are the keys of the dict. -/
theorem dictItems_map_fst (kvs : List (String × Json)) :
    (dictItems kvs).map Prod.fst = dictKeys kvs := by
  simp [dictItems, List.map_map, Function.comp_def]

unseal branchWalk in
/-- C9: counterexample.  A mapping whose node carries a truthy list `parent`
value makes the walk's `cursor in id_mapping` membership test raise
`TypeError` (lists are unhashable in Python), so `_build_active_branch_path`
does not return a path for every mapping and every current_node value. -/
theorem c9_counterexample :
    build_active_branch_path [("a", .obj [("parent", .arr [.num 1])])]
      (.str "a") = .error .typeError := by rfl

/-- C9 (amended): `_build_active_branch_path` always terminates (modelled as a
total Lean function), and whenever it returns a path rather than raising
`TypeError`, the returned path contains no node id more than once and its
length never exceeds the number of keys in the mapping. -/
theorem c9_branch_path_bounded_amended (mapping : List (String × Json))
    (current_node : Json) (path : List String)
    (h : build_active_branch_path mapping current_node = .ok path) :
    path.Nodup ∧ path.length ≤ (dictKeys mapping).length := by
  rw [build_active_branch_path.eq_def] at h
  split at h
  · cases h
    exact ⟨List.nodup_nil, by simp⟩
  · split at h
    · exact absurd h (by simp)
    · split at h
      · rename_i cn heq
        cases hw : branchWalk mapping (dictKeys mapping) (.str cn) with
        | error e => rw [hw] at h; exact absurd h (by simp [Except.map])
        | ok walked =>
          rw [hw] at h
          simp only [Except.map] at h
          cases h
          obtain ⟨wnd, wlen, -⟩ := branchWalk_spec (dictKeys mapping).length mapping
            (dictKeys mapping) (.str cn) walked le_rfl (dictKeys_nodup mapping) hw
          exact ⟨List.nodup_reverse.mpr wnd, by simpa using wlen⟩
      · exact absurd h (by simp)
    · cases hs : branchSortable (dictItems mapping) with
      | error e => rw [hs] at h; exact absurd h (by simp [Except.map])
      | ok sortable =>
        rw [hs] at h
        simp only [Except.map] at h
        cases h
        have hperm := List.mergeSort_perm sortable (fun a b =>
            decide (a.1 < b.1 ∨ (a.1 = b.1 ∧ ¬ b.2 < a.2)))
        have hsub := branchSortable_sublist (dictItems mapping) sortable hs
        rw [dictItems_map_fst] at hsub
        have hmapperm := hperm.map Prod.snd
        refine ⟨hmapperm.nodup_iff.mpr
          (List.Nodup.sublist hsub (dictKeys_nodup mapping)), ?_⟩
        calc ((sortable.mergeSort fun a b =>
                decide (a.1 < b.1 ∨ (a.1 = b.1 ∧ ¬ b.2 < a.2))).map Prod.snd).length
            = (sortable.map Prod.snd).length := by
              rw [List.length_map, List.length_map, hperm.length_eq]
          _ ≤ (dictKeys mapping).length := hsub.length_le

unseal branchWalk in
/-- Witness for the amended C9 theorem at a concrete one-node mapping. -/
theorem c9_branch_path_bounded_amended_witness :
    (["a"] : List String).Nodup ∧
      (["a"] : List String).length ≤
        (dictKeys [("a", Json.obj [("parent", Json.null)])]).length :=
  c9_branch_path_bounded_amended [("a", .obj [("parent", .null)])] (.str "a")
    ["a"] (by rfl)

theorem mergeSort_single {α : Type} (le : α → α → Bool) (a : α) :
    [a].mergeSort le = [a] :=
  List.mergeSort_of_sorted (by simp)

theorem urlFoldStep_subset (acc : List String) (raw : String) :
    acc ⊆ urlFoldStep acc raw := by
  unfold urlFoldStep
  by_cases h : normalize_reference_url raw = "" ∨ normalize_reference_url raw ∈ acc
  · rw [if_pos h]
    exact fun x hx => hx
  · rw [if_neg h]
    exact List.subset_append_left _ _

theorem urlFold_subset : ∀ (l acc : List String),
    acc ⊆ l.foldl urlFoldStep acc := by
  intro l
  induction l with
  | nil => intro acc; exact fun x hx => hx
  | cons raw rest ih =>
    intro acc
    rw [List.foldl_cons]
    exact (urlFoldStep_subset acc raw).trans (ih _)

theorem urlFold_mem : ∀ (l acc : List String) (raw : String), raw ∈ l →
    normalize_reference_url raw ≠ "" →
    normalize_reference_url raw ∈ l.foldl urlFoldStep acc := by
  intro l
  induction l with
  | nil => intro acc raw h _; exact absurd h (by simp)
  | cons head rest ih =>
    intro acc raw hmem hne
    rw [List.foldl_cons]
    rcases List.mem_cons.mp hmem with h | h
    · subst h
      apply urlFold_subset rest
      unfold urlFoldStep
      by_cases hc : normalize_reference_url raw = "" ∨ normalize_reference_url raw ∈ acc
      · rw [if_pos hc]
        rcases hc with hc | hc
        · exact absurd hc hne
        · exact hc
      · rw [if_neg hc]
        simp
    · exact ih _ raw h hne

theorem urlFold_noop : ∀ (l acc : List String),
    (∀ raw ∈ l, normalize_reference_url raw = "" ∨
      normalize_reference_url raw ∈ acc) →
    l.foldl urlFoldStep acc = acc := by
  intro l
  induction l with
  | nil => intro acc _; rfl
  | cons head rest ih =>
    intro acc h
    rw [List.foldl_cons]
    have hstep : urlFoldStep acc head = acc := by
      unfold urlFoldStep
      rw [if_pos (h head (by simp))]
    rw [hstep]
    exact ih acc fun raw hr => h raw (by simp [hr])

theorem refFoldStep_idem (acc : List String) (r : Json) :
    refFoldStep (refFoldStep acc r) r = refFoldStep acc r := by
  cases r with
  | obj rkvs =>
    show (extract_reference_urls rkvs).foldl urlFoldStep
        ((extract_reference_urls rkvs).foldl urlFoldStep acc) =
      (extract_reference_urls rkvs).foldl urlFoldStep acc
    apply urlFold_noop
    intro raw hmem
    by_cases hne : normalize_reference_url raw = ""
    · exact Or.inl hne
    · exact Or.inr (urlFold_mem _ acc raw hmem hne)
  | null => rfl
  | bool b => rfl
  | num q => rfl
  | str s => rfl
  | arr l => rfl

/-- An immediately repeated reference adds nothing: the rendered links are
de-duplicated by normalized URL. -/
theorem render_links_dup (r : Json) (refs : List Json) :
    render_content_reference_links (r :: r :: refs) =
      render_content_reference_links (r :: refs) := by
  unfold render_content_reference_links
  rw [List.foldl_cons, List.foldl_cons, List.foldl_cons, refFoldStep_idem]

/-- When the text holds no literal `cite`, the fallback marker scrub is the
identity. -/
theorem citationMarkerSub_id {s : String} (h : strContains s "cite" = false) :
    citationMarkerSub s = s := by
  cases s with
  | mk d =>
    simp only [strContains] at h
    simp only [citationMarkerSub, pyReplace]
    rw [replaceChars_of_not_occurs h]

theorem subOccurs_trans {u rep l : List Char} (h1 : subOccurs u rep = true)
    (h2 : ∃ pre post, l = pre ++ rep ++ post) : subOccurs u l = true := by
  obtain ⟨p2, q2, hrep⟩ := subOccurs_iff.mp h1
  obtain ⟨p1, q1, hl⟩ := h2
  exact subOccurs_of_factor
    (show l = (p1 ++ p2) ++ u ++ (q2 ++ q1) by rw [hl, hrep]; simp)

/-- `_apply_chatgpt_content_references` on metadata holding a single
reference entry reduces to one replacement pass followed by the fallback
marker scrub. -/
theorem apply_single_ref (text marker repl : String) (rkvs : List (String × Json))
    (htext : text ≠ "")
    (h1 : (dictGet "matched_text" rkvs).getD .null = .str marker)
    (h2 : marker ≠ "")
    (h3 : render_content_reference_links [.obj rkvs] = repl)
    (h4 : repl ≠ "") :
    apply_chatgpt_content_references text
        (some [("content_references", .arr [.obj rkvs])]) =
      citationMarkerSub (pyReplace text marker repl) := by
  rw [apply_chatgpt_content_references.eq_def]
  rw [if_neg htext]
  dsimp only
  have hd : (dictGet "content_references"
      [("content_references", Json.arr [Json.obj rkvs])]).getD Json.null
      = Json.arr [Json.obj rkvs] := rfl
  rw [hd]
  simp only [List.foldl_cons, List.foldl_nil]
  rw [h1]
  dsimp only
  rw [if_pos h2]
  have hg : groupedAppend [] marker (Json.obj rkvs) = [(marker, [Json.obj rkvs])] := rfl
  rw [hg]
  simp only [List.filterMap_cons, List.filterMap_nil]
  rw [h3]
  rw [if_pos h4]
  rw [mergeSort_single]
  simp only [List.foldl_cons, List.foldl_nil]

unseal replaceChars utf8Decode tokenizeEscapes decodeTokens findMdUrls List.merge List.mergeSort in
/-- C3: counterexample.  A reference URL that itself contains the substring
`cite` is corrupted by the fallback regex `cite.*?` (which matches the bare
literal `cite`): the rendered text does not contain the reference's URL. -/
theorem c3_counterexample :
    apply_chatgpt_content_references "Alpha citeturn0"
        (some [("content_references", .arr [.obj
          [("matched_text", .str "citeturn0"),
           ("safe_urls", .arr [.str "https://cite.example.com/d"])]])])
      = "Alpha ([.example.com/d](https://.example.com/d))" ∧
    strContains "Alpha ([.example.com/d](https://.example.com/d))"
      "https://cite.example.com/d" = false := by
  constructor
  · rfl
  · rfl

unseal replaceChars utf8Decode tokenizeEscapes decodeTokens findMdUrls List.merge List.mergeSort in
/-- C3 (amended): for a block text containing a citation marker with an
associated rendered reference link, *provided the one-pass replaced text is
itself free of the literal `cite` and of the marker*, the rendered block text
is exactly the one-pass replacement: it contains every factor of the rendered
replacement (in particular the reference's URL) and does not contain the
literal marker token; rendered links are de-duplicated (an immediately
repeated reference adds nothing) and `utm_*` query parameters are stripped by
URL normalization.  Without the provisos the original claim fails
(`c3_counterexample`): the fallback regex deletes `cite` from substituted
URLs. -/
theorem c3_citation_rendering_amended
    (text marker repl u : String) (rkvs : List (String × Json))
    (htext : text ≠ "")
    (h1 : (dictGet "matched_text" rkvs).getD .null = .str marker)
    (h2 : marker ≠ "")
    (h3 : render_content_reference_links [.obj rkvs] = repl)
    (h4 : repl ≠ "")
    (hmark : strContains text marker = true)
    (hu : strContains repl u = true)
    (hc : strContains (pyReplace text marker repl) "cite" = false)
    (hm : strContains (pyReplace text marker repl) marker = false) :
    (apply_chatgpt_content_references text
        (some [("content_references", .arr [.obj rkvs])]) =
      pyReplace text marker repl ∧
     strContains (pyReplace text marker repl) u = true ∧
     strContains (pyReplace text marker repl) marker = false) ∧
    (∀ (r : Json) (refs : List Json),
      render_content_reference_links (r :: r :: refs) =
        render_content_reference_links (r :: refs)) ∧
    normalize_reference_url "https://ex.com/p?utm_source=x&q=1" =
      "https://ex.com/p?q=1" := by
  refine ⟨⟨?_, ?_, hm⟩, fun r refs => render_links_dup r refs, by rfl⟩
  · exact (apply_single_ref text marker repl rkvs htext h1 h2 h3 h4).trans
      (citationMarkerSub_id hc)
  · have hmd : marker.data ≠ [] := by
      intro hl
      apply h2
      cases marker with
      | mk d => cases hl; rfl
    have hmark' : subOccurs marker.data text.data = true := hmark
    have hu' : subOccurs u.data repl.data = true := hu
    have hrep : ∃ pre post,
        replaceChars marker.data repl.data text.data = pre ++ repl.data ++ post :=
      replaceChars_contains_repl hmd hmark'
    have : subOccurs u.data (replaceChars marker.data repl.data text.data) = true :=
      subOccurs_trans hu' hrep
    simpa [strContains, pyReplace] using this

unseal replaceChars utf8Decode tokenizeEscapes decodeTokens findMdUrls List.merge List.mergeSort in
/-- Witness for the amended C3 theorem at a concrete marker and reference. -/
theorem c3_citation_rendering_amended_witness :
    (apply_chatgpt_content_references "Alpha citeturn0"
        (some [("content_references", Json.arr [Json.obj
          [("matched_text", Json.str "citeturn0"),
           ("safe_urls", Json.arr [Json.str "https://ex.com/a"])]])]) =
      pyReplace "Alpha citeturn0" "citeturn0" "([ex.com/a](https://ex.com/a))" ∧
     strContains (pyReplace "Alpha citeturn0" "citeturn0"
       "([ex.com/a](https://ex.com/a))") "https://ex.com/a" = true ∧
     strContains (pyReplace "Alpha citeturn0" "citeturn0"
       "([ex.com/a](https://ex.com/a))") "citeturn0" = false) ∧
    (∀ (r : Json) (refs : List Json),
      render_content_reference_links (r :: r :: refs) =
        render_content_reference_links (r :: refs)) ∧
    normalize_reference_url "https://ex.com/p?utm_source=x&q=1" =
      "https://ex.com/p?q=1" :=
  c3_citation_rendering_amended "Alpha citeturn0" "citeturn0"
    "([ex.com/a](https://ex.com/a))" "https://ex.com/a"
    [("matched_text", Json.str "citeturn0"),
     ("safe_urls", Json.arr [Json.str "https://ex.com/a"])]
    (by decide) rfl (by decide) (by rfl) (by decide) (by rfl) (by rfl)
    (by rfl) (by rfl)

unseal replaceChars extract_text branchWalk utf8Decode tokenizeEscapes decodeTokens splitWsChars findMdUrls reprJson List.merge List.mergeSort in
/-- C4: counterexample.  A ChatGPT conversation whose active-branch messages
are not in chronological order (create_times 100 then 50) is tightened using
`messages[0]` / `messages[-1]` rather than the min/max, so the resulting
envelope has `created` instant 100 while a contained message has instant 50:
`created <= m.created` fails. -/
theorem c4_counterexample :
    ((parse_chatgpt_export (.arr [.obj [
        ("id", .str "c1"),
        ("create_time", .num 100),
        ("current_node", .str "b"),
        ("mapping", .obj [
          ("a", .obj [("parent", .null),
            ("message", .obj [("id", .str "ma"),
              ("author", .obj [("role", .str "user")]),
              ("create_time", .num 100),
              ("content", .obj [("content_type", .str "text"),
                ("parts", .arr [.str "hi"])])])]),
          ("b", .obj [("parent", .str "a"),
            ("message", .obj [("id", .str "mb"),
              ("author", .obj [("role", .str "assistant")]),
              ("create_time", .num 50),
              ("content", .obj [("content_type", .str "text"),
                ("parts", .arr [.str "yo"])])])])])]]) now0).map fun l =>
      l.map fun c => (dtInstant c.created, dtInstant c.updated,
        c.messages.map fun m => dtInstant m.created))
      = .ok [(100, 100, [100, 50])] ∧ ¬ ((100 : ℚ) ≤ 50) := by
  constructor
  · with_unfolding_all rfl
  · norm_num

theorem pyMinDT_le_left (a b : PyDateTime) :
    dtInstant (pyMinDT a b) ≤ dtInstant a := by
  unfold pyMinDT
  split
  · exact le_of_lt (by assumption)
  · exact le_refl _

theorem pyMinDT_le_right (a b : PyDateTime) :
    dtInstant (pyMinDT a b) ≤ dtInstant b := by
  unfold pyMinDT
  split
  · exact le_refl _
  · exact le_of_not_lt (by assumption)

theorem le_pyMaxDT_left (a b : PyDateTime) :
    dtInstant a ≤ dtInstant (pyMaxDT a b) := by
  unfold pyMaxDT
  split
  · exact le_of_lt (by assumption)
  · exact le_refl _

theorem le_pyMaxDT_right (a b : PyDateTime) :
    dtInstant b ≤ dtInstant (pyMaxDT a b) := by
  unfold pyMaxDT
  split
  · exact le_refl _
  · exact le_of_not_lt (by assumption)

theorem sorted_head_le {l : List MessageRecord} {m0 m : MessageRecord}
    (hs : l.Pairwise (fun a b => dtInstant a.created ≤ dtInstant b.created))
    (hh : l.head? = some m0) (hm : m ∈ l) :
    dtInstant m0.created ≤ dtInstant m.created := by
  cases l with
  | nil => exact absurd hm (by simp)
  | cons a rest =>
    simp only [List.head?_cons, Option.some.injEq] at hh
    subst hh
    rcases List.mem_cons.mp hm with h | h
    · exact h ▸ le_refl _
    · exact (List.pairwise_cons.mp hs).1 m h

theorem sorted_le_getLast : ∀ {l : List MessageRecord} {ml m : MessageRecord},
    l.Pairwise (fun a b => dtInstant a.created ≤ dtInstant b.created) →
    l.getLast? = some ml → m ∈ l →
    dtInstant m.created ≤ dtInstant ml.created := by
  intro l
  induction l with
  | nil => intro ml m _ _ hm; exact absurd hm (by simp)
  | cons a rest ih =>
    intro ml m hs hl hm
    cases rest with
    | nil =>
      simp only [List.getLast?_singleton, Option.some.injEq] at hl
      rcases List.mem_singleton.mp hm with h
      rw [h, hl]
    | cons b rest2 =>
      rw [List.getLast?_cons_cons] at hl
      have hs' := List.pairwise_cons.mp hs
      rcases List.mem_cons.mp hm with h | h
      · subst h
        have hml : ml ∈ b :: rest2 := List.mem_of_mem_getLast? hl
        exact hs'.1 ml hml
      · exact ih hs'.2 hl h

/-- The tightening `min(created, messages[0].created)` /
`max(updated, messages[-1].created)` brackets every message of a list that
is sorted by creation instant. -/
theorem sandwich_of_sorted {msgs : List MessageRecord} (env0 env1 : PyDateTime)
    {m : MessageRecord}
    (hs : msgs.Pairwise (fun a b => dtInstant a.created ≤ dtInstant b.created))
    (hm : m ∈ msgs) :
    dtInstant (match msgs.head? with
      | some m0 => pyMinDT env0 m0.created
      | none => env0) ≤ dtInstant m.created ∧
    dtInstant m.created ≤ dtInstant (match msgs.getLast? with
      | some ml => pyMaxDT env1 ml.created
      | none => env1) := by
  cases hh : msgs.head? with
  | none =>
    rw [List.head?_eq_none_iff] at hh
    subst hh
    exact absurd hm (by simp)
  | some m0 =>
    cases hl : msgs.getLast? with
    | none =>
      rw [List.getLast?_eq_none_iff] at hl
      subst hl
      exact absurd hm (by simp)
    | some ml =>
      constructor
      · exact le_trans (pyMinDT_le_right env0 m0.created) (sorted_head_le hs hh hm)
      · exact le_trans (sorted_le_getLast hs hl hm) (le_pyMaxDT_right env1 ml.created)

/-- Inversion for `parse_claude_conversation`: the produced record's
timestamps are the tightened envelope timestamps over its (sorted) message
list. -/
theorem parse_claude_conversation_inversion
    (rkvs : List (String × Json)) (now : PyDateTime) (conv : ConversationRecord)
    (h : parse_claude_conversation (.obj rkvs) now = some conv) :
    conv.messages.Pairwise (fun a b => dtInstant a.created ≤ dtInstant b.created) ∧
    conv.created = (match conv.messages.head? with
      | some m0 => pyMinDT (parse_iso_datetime
          ((dictGet "created_at" rkvs).getD .null) none now) m0.created
      | none => parse_iso_datetime ((dictGet "created_at" rkvs).getD .null) none now) ∧
    conv.updated = (match conv.messages.getLast? with
      | some ml => pyMaxDT (parse_iso_datetime
          ((dictGet "updated_at" rkvs).getD .null)
          (some (parse_iso_datetime ((dictGet "created_at" rkvs).getD .null) none now))
          now) ml.created
      | none => parse_iso_datetime ((dictGet "updated_at" rkvs).getD .null)
          (some (parse_iso_datetime ((dictGet "created_at" rkvs).getD .null) none now))
          now) := by
  rw [parse_claude_conversation.eq_def] at h
  dsimp only at h
  split at h
  · exact absurd h (by simp)
  · rw [Option.some.injEq] at h
    subst h
    refine ⟨?_, rfl, rfl⟩
    exact @List.sorted_mergeSort MessageRecord
      (fun a b => decide (dtInstant a.created ≤ dtInstant b.created))
      (fun a b c hab hbc => by
        simp only [decide_eq_true_eq] at *
        exact le_trans hab hbc)
      (fun a b => by
        rcases le_total (dtInstant a.created) (dtInstant b.created) with hle | hle <;>
          simp [hle])
      _ |>.imp (fun hx => by simpa using hx)

/-- Inversion for `parse_chatgpt_conversation`: the produced record's message
list comes from walking the active branch path, and its timestamps are the
tightened envelope timestamps over `messages[0]` / `messages[-1]`. -/
theorem parse_chatgpt_conversation_inversion
    (rkvs : List (String × Json)) (now : PyDateTime) (conv : ConversationRecord)
    (h : parse_chatgpt_conversation (.obj rkvs) now = .ok (some conv)) :
    ∃ created0 updated0 node_ids msgs,
      parse_unix_datetime ((dictGet "create_time" rkvs).getD .null) none now
        = .ok created0 ∧
      parse_unix_datetime ((dictGet "update_time" rkvs).getD .null)
        (some created0) now = .ok updated0 ∧
      build_active_branch_path
        (match pyOr ((dictGet "mapping" rkvs).getD .null) (.obj []) with
         | .obj m => m
         | _ => [])
        ((dictGet "current_node" rkvs).getD .null) = .ok node_ids ∧
      chatgptMessages
        (match pyOr ((dictGet "mapping" rkvs).getD .null) (.obj []) with
         | .obj m => m
         | _ => [])
        ((dictGet "default_model_slug" rkvs).getD .null) created0 now node_ids
        = .ok msgs ∧
      conv.messages = msgs ∧
      conv.created = (match msgs.head? with
        | some m0 => pyMinDT created0 m0.created
        | none => created0) ∧
      conv.updated = (match msgs.getLast? with
        | some ml => pyMaxDT updated0 ml.created
        | none => updated0) := by
  rw [parse_chatgpt_conversation.eq_def] at h
  dsimp only at h
  split at h
  · exact absurd h (by simp [pure, Except.pure])
  · rw [except_bind_ok] at h
    obtain ⟨created0, hc, h⟩ := h
    rw [except_bind_ok] at h
    obtain ⟨updated0, hu, h⟩ := h
    rw [except_bind_ok] at h
    obtain ⟨node_ids, hb, h⟩ := h
    rw [except_bind_ok] at h
    obtain ⟨msgs, hmsgs, h⟩ := h
    simp only [pure, Except.pure, Except.ok.injEq, Option.some.injEq] at h
    subst h
    exact ⟨created0, updated0, node_ids, msgs, hc, hu, hb, hmsgs,
      rfl, rfl, rfl⟩

theorem dtAddSeconds_ok {dt : PyDateTime} {s : ℚ} {dt' : PyDateTime}
    (h : dtAddSeconds dt s = .ok dt') : dt' = ⟨dt.wall + s, dt.off⟩ := by
  unfold dtAddSeconds at h
  split at h
  · exact absurd h (by simp)
  · rw [Except.ok.injEq] at h
    exact h.symm

/-- The Gemini chunk loop: every produced message has a non-`system` role and
a creation time `created + chunk_index` seconds with index at least the
starting index, and the list is sorted by creation instant. -/
theorem geminiChunkMessages_spec : ∀ (chunks : List Json) (cid : String)
    (mn : Option String) (created0 : PyDateTime) (i : ℕ) (l : List MessageRecord),
    geminiChunkMessages cid mn created0 i chunks = .ok l →
    (∀ m ∈ l, m.role ≠ "system" ∧
      ∃ j : ℕ, i ≤ j ∧ m.created = ⟨created0.wall + (j : ℚ), created0.off⟩) ∧
    l.Pairwise (fun a b => dtInstant a.created ≤ dtInstant b.created) := by
  intro chunks
  induction chunks with
  | nil =>
    intro cid mn created0 i l h
    cases h
    exact ⟨by simp, by simp⟩
  | cons ch rest ih =>
    intro cid mn created0 i l h
    rw [geminiChunkMessages.eq_def] at h
    dsimp only at h
    split at h
    · rw [except_bind_ok] at h
      obtain ⟨mc, hmc, h⟩ := h
      rw [except_bind_ok] at h
      obtain ⟨tail, htail, h⟩ := h
      have hmc' := dtAddSeconds_ok hmc
      obtain ⟨htprop, htsort⟩ := ih cid mn created0 (i + 1) tail htail
      split at h
      · simp only [pure, Except.pure, Except.ok.injEq] at h
        subst h
        exact ⟨fun m hm => by
          obtain ⟨hr, j, hj, hcr⟩ := htprop m hm
          exact ⟨hr, j, by omega, hcr⟩, htsort⟩
      · simp only [pure, Except.pure, Except.ok.injEq] at h
        subst h
        constructor
        · intro m hm
          rcases List.mem_cons.mp hm with hmeq | hm
          · subst hmeq
            have hrole : ∀ (c : Bool),
                ((if c = true then "user" else "assistant") : String) ≠ "system" := by
              intro c
              cases c <;> simp
            refine ⟨hrole _, i, le_refl i, ?_⟩
            simpa using hmc'
          · obtain ⟨hr, j, hj, hcr⟩ := htprop m hm
            exact ⟨hr, j, by omega, hcr⟩
        · rw [List.pairwise_cons]
          refine ⟨?_, htsort⟩
          intro m hm
          obtain ⟨-, j, hj, hcr⟩ := htprop m hm
          rw [hmc', hcr]
          unfold dtInstant
          simp only
          have hij : (i : ℚ) ≤ (j : ℚ) := by exact_mod_cast Nat.le_of_succ_le hj
          linarith
    · obtain ⟨htprop, htsort⟩ := ih cid mn created0 (i + 1) l h
      refine ⟨fun m hm => ?_, htsort⟩
      obtain ⟨hr, j, hj, hcr⟩ := htprop m hm
      exact ⟨hr, j, by omega, hcr⟩

/-- Inversion for `parse_gemini_conversation`: the record's messages are an
optional system message followed by the chunk messages, and its timestamps
are the (conditionally) tightened envelope timestamps over the non-system
messages. -/
theorem parse_gemini_conversation_inversion
    (rkvs : List (String × Json)) (now : PyDateTime) (conv : ConversationRecord)
    (h : parse_gemini_conversation (.obj rkvs) now = .ok (some conv)) :
    ∃ created0 updated0 sysMsgs chunkMsgs,
      parse_unix_datetime ((dictGet "create_time" rkvs).getD .null) none now
        = .ok created0 ∧
      parse_unix_datetime ((dictGet "update_time" rkvs).getD .null)
        (some created0) now = .ok updated0 ∧
      (∃ cid mn chunks, geminiChunkMessages cid mn created0 0 chunks
        = .ok chunkMsgs) ∧
      (∀ m ∈ sysMsgs, m.role = "system" ∧ m.created = created0) ∧
      conv.messages = sysMsgs ++ chunkMsgs ∧
      conv.created = (if conv.messages.isEmpty then created0
        else match (conv.messages.filter fun m => m.role ≠ "system").head? with
          | some m0 => pyMinDT created0 m0.created
          | none => created0) ∧
      conv.updated = (if conv.messages.isEmpty then updated0
        else match (conv.messages.filter fun m => m.role ≠ "system").getLast? with
          | some ml => pyMaxDT updated0 ml.created
          | none => updated0) := by
  rw [parse_gemini_conversation.eq_def] at h
  dsimp only at h
  split at h
  · exact absurd h (by simp [pure, Except.pure])
  · rw [except_bind_ok] at h
    obtain ⟨created0, hc, h⟩ := h
    rw [except_bind_ok] at h
    obtain ⟨updated0, hu, h⟩ := h
    split at h
    · exact absurd h (by simp [pure, Except.pure])
    · rw [except_bind_ok] at h
      obtain ⟨chunkMsgs, hchunk, h⟩ := h
      simp only [pure, Except.pure, Except.ok.injEq, Option.some.injEq] at h
      subst h
      refine ⟨created0, updated0, _, chunkMsgs, hc, hu, ⟨_, _, _, hchunk⟩,
        ?_, rfl, rfl, rfl⟩
      intro m hm
      rcases hsys : extract_gemini_system_text rkvs with _ | st
      · rw [hsys] at hm
        simp at hm
      · rw [hsys] at hm
        simp only [List.mem_singleton] at hm
        subst hm
        exact ⟨rfl, rfl⟩

theorem dtInstant_add (w : ℚ) (o : Option Int) (j : ℚ) :
    dtInstant ⟨w + j, o⟩ = dtInstant ⟨w, o⟩ + j := by
  unfold dtInstant
  simp only
  ring

/-- The Gemini tightening brackets every message as soon as at least one
non-system message exists. -/
theorem gemini_sandwich
    {created0 updated0 : PyDateTime} {sysMsgs chunkMsgs msgs : List MessageRecord}
    (hmsgs : msgs = sysMsgs ++ chunkMsgs)
    (hsys : ∀ m ∈ sysMsgs, m.role = "system" ∧ m.created = created0)
    (hchunk : ∀ m ∈ chunkMsgs, m.role ≠ "system" ∧
      ∃ j : ℕ, m.created = ⟨created0.wall + (j : ℚ), created0.off⟩)
    (hsort : chunkMsgs.Pairwise (fun a b => dtInstant a.created ≤ dtInstant b.created))
    (hex : ∃ m' ∈ msgs, m'.role ≠ "system")
    {m : MessageRecord} (hm : m ∈ msgs) :
    dtInstant (if msgs.isEmpty then created0
      else match (msgs.filter fun x => x.role ≠ "system").head? with
        | some m0 => pyMinDT created0 m0.created
        | none => created0) ≤ dtInstant m.created ∧
    dtInstant m.created ≤ dtInstant (if msgs.isEmpty then updated0
      else match (msgs.filter fun x => x.role ≠ "system").getLast? with
        | some ml => pyMaxDT updated0 ml.created
        | none => updated0) := by
  have hfilter : (msgs.filter fun x => x.role ≠ "system") = chunkMsgs := by
    rw [hmsgs, List.filter_append]
    have h1 : (sysMsgs.filter fun x => x.role ≠ "system") = [] := by
      rw [List.filter_eq_nil_iff]
      intro a ha
      simp [(hsys a ha).1]
    have h2 : (chunkMsgs.filter fun x => x.role ≠ "system") = chunkMsgs := by
      rw [List.filter_eq_self]
      intro a ha
      simpa using (hchunk a ha).1
    rw [h1, h2, List.nil_append]
  obtain ⟨m', hm', hrole'⟩ := hex
  have hm'chunk : m' ∈ chunkMsgs := by
    rw [hmsgs] at hm'
    rcases List.mem_append.mp hm' with h | h
    · exact absurd (hsys m' h).1 hrole'
    · exact h
  have hne : chunkMsgs ≠ [] := fun hnil => by simp [hnil] at hm'chunk
  have hmsgs_ne : msgs.isEmpty = false := by
    rw [hmsgs]
    rcases chunkMsgs with _ | ⟨c, cs⟩
    · exact absurd rfl hne
    · simp
  have hc0 : ∃ c0, chunkMsgs.head? = some c0 := by
    rcases chunkMsgs with _ | ⟨c, cs⟩
    · exact absurd rfl hne
    · exact ⟨c, rfl⟩
  have hcl : ∃ cl, chunkMsgs.getLast? = some cl := by
    rcases hgl : chunkMsgs.getLast? with _ | cl
    · rw [List.getLast?_eq_none_iff] at hgl
      exact absurd hgl hne
    · exact ⟨cl, rfl⟩
  obtain ⟨c0, hc0⟩ := hc0
  obtain ⟨cl, hcl⟩ := hcl
  have hlow : ∀ x ∈ msgs, dtInstant created0 ≤ dtInstant x.created := by
    intro x hx
    rw [hmsgs] at hx
    rcases List.mem_append.mp hx with h | h
    · rw [(hsys x h).2]
    · obtain ⟨-, j, hj⟩ := hchunk x h
      rw [hj]
      have : dtInstant ⟨created0.wall + (j : ℚ), created0.off⟩
          = dtInstant ⟨created0.wall, created0.off⟩ + (j : ℚ) := dtInstant_add _ _ _
      rw [this]
      have hj0 : (0 : ℚ) ≤ (j : ℚ) := by positivity
      have : dtInstant created0 = dtInstant ⟨created0.wall, created0.off⟩ := rfl
      linarith [this ▸ le_refl (dtInstant created0)]
  rw [hmsgs_ne, hfilter, hc0, hcl]
  simp only [Bool.false_eq_true, if_false]
  constructor
  · exact le_trans (pyMinDT_le_left created0 c0.created) (hlow m hm)
  · have hup : dtInstant m.created ≤ dtInstant cl.created := by
      rw [hmsgs] at hm
      rcases List.mem_append.mp hm with h | h
      · rw [(hsys m h).2]
        have hclmem : cl ∈ msgs := by
          rw [hmsgs]
          exact List.mem_append_right _ (List.mem_of_mem_getLast? hcl)
        exact hlow cl hclmem
      · exact sorted_le_getLast hsort hcl h
    exact le_trans hup (le_pyMaxDT_right updated0 cl.created)

/-- C4 (amended): the envelope-tightening invariant
`created <= m.created <= updated` holds unconditionally for Claude (whose
parser sorts messages before tightening); for ChatGPT it holds whenever the
active-branch messages happen to be sorted by creation instant (the parser
tightens with `messages[0]`/`messages[-1]` without sorting, and
`c4_counterexample` shows it fails otherwise); for Gemini it holds whenever
the conversation has at least one non-system message (a system-only
conversation skips tightening, and its envelope `updated` may precede
`created`).  Empty-message conversations retain their original envelope
timestamps in all three parsers. -/
theorem c4_timestamp_tightening_amended :
    (∀ (rkvs : List (String × Json)) (now : PyDateTime)
       (conv : ConversationRecord) (m : MessageRecord),
       parse_claude_conversation (.obj rkvs) now = some conv →
       m ∈ conv.messages →
       dtInstant conv.created ≤ dtInstant m.created ∧
       dtInstant m.created ≤ dtInstant conv.updated) ∧
    (∀ (rkvs : List (String × Json)) (now : PyDateTime)
       (conv : ConversationRecord) (m : MessageRecord),
       parse_chatgpt_conversation (.obj rkvs) now = .ok (some conv) →
       conv.messages.Pairwise
         (fun a b => dtInstant a.created ≤ dtInstant b.created) →
       m ∈ conv.messages →
       dtInstant conv.created ≤ dtInstant m.created ∧
       dtInstant m.created ≤ dtInstant conv.updated) ∧
    (∀ (rkvs : List (String × Json)) (now : PyDateTime)
       (conv : ConversationRecord) (m : MessageRecord),
       parse_gemini_conversation (.obj rkvs) now = .ok (some conv) →
       (∃ m' ∈ conv.messages, m'.role ≠ "system") →
       m ∈ conv.messages →
       dtInstant conv.created ≤ dtInstant m.created ∧
       dtInstant m.created ≤ dtInstant conv.updated) ∧
    (∀ (rkvs : List (String × Json)) (now : PyDateTime)
       (conv : ConversationRecord),
       parse_claude_conversation (.obj rkvs) now = some conv →
       conv.messages = [] →
       conv.created = parse_iso_datetime
         ((dictGet "created_at" rkvs).getD .null) none now ∧
       conv.updated = parse_iso_datetime
         ((dictGet "updated_at" rkvs).getD .null)
         (some (parse_iso_datetime ((dictGet "created_at" rkvs).getD .null)
           none now)) now) ∧
    (∀ (rkvs : List (String × Json)) (now : PyDateTime)
       (conv : ConversationRecord),
       parse_chatgpt_conversation (.obj rkvs) now = .ok (some conv) →
       conv.messages = [] →
       parse_unix_datetime ((dictGet "create_time" rkvs).getD .null) none now
         = .ok conv.created ∧
       parse_unix_datetime ((dictGet "update_time" rkvs).getD .null)
         (some conv.created) now = .ok conv.updated) ∧
    (∀ (rkvs : List (String × Json)) (now : PyDateTime)
       (conv : ConversationRecord),
       parse_gemini_conversation (.obj rkvs) now = .ok (some conv) →
       conv.messages = [] →
       parse_unix_datetime ((dictGet "create_time" rkvs).getD .null) none now
         = .ok conv.created ∧
       parse_unix_datetime ((dictGet "update_time" rkvs).getD .null)
         (some conv.created) now = .ok conv.updated) := by
  refine ⟨?_, ?_, ?_, ?_, ?_, ?_⟩
  · intro rkvs now conv m h hm
    obtain ⟨hsort, hcr, hup⟩ := parse_claude_conversation_inversion rkvs now conv h
    rw [hcr, hup]
    exact sandwich_of_sorted _ _ hsort hm
  · intro rkvs now conv m h hsorted hm
    obtain ⟨c0, u0, nids, msgs, hc, hu, hb, hmsg, hmeq, hcr, hupd⟩ :=
      parse_chatgpt_conversation_inversion rkvs now conv h
    rw [hcr, hupd]
    rw [hmeq] at hsorted hm
    exact sandwich_of_sorted _ _ hsorted hm
  · intro rkvs now conv m h hex hm
    obtain ⟨c0, u0, sys, chunks, hc, hu, hch, hsys, hmeq, hcr, hupd⟩ :=
      parse_gemini_conversation_inversion rkvs now conv h
    obtain ⟨cid, mn, chl, hchunks⟩ := hch
    obtain ⟨hprop, hsort⟩ := geminiChunkMessages_spec chl cid mn c0 0 chunks hchunks
    rw [hcr, hupd]
    refine gemini_sandwich hmeq hsys (fun x hx => ?_) hsort hex hm
    obtain ⟨hr, j, -, hj⟩ := hprop x hx
    exact ⟨hr, j, hj⟩
  · intro rkvs now conv h hempty
    obtain ⟨-, hcr, hup⟩ := parse_claude_conversation_inversion rkvs now conv h
    rw [hempty] at hcr hup
    simp only [List.head?_nil, List.getLast?_nil] at hcr hup
    exact ⟨hcr, hup⟩
  · intro rkvs now conv h hempty
    obtain ⟨c0, u0, nids, msgs, hc, hu, hb, hmsg, hmeq, hcr, hupd⟩ :=
      parse_chatgpt_conversation_inversion rkvs now conv h
    have hm0 : msgs = [] := by rw [← hmeq, hempty]
    rw [hm0] at hcr hupd
    simp only [List.head?_nil, List.getLast?_nil] at hcr hupd
    rw [hcr, hupd]
    exact ⟨hc, hu⟩
  · intro rkvs now conv h hempty
    obtain ⟨c0, u0, sys, chunks, hc, hu, hch, hsys, hmeq, hcr, hupd⟩ :=
      parse_gemini_conversation_inversion rkvs now conv h
    rw [hempty] at hcr hupd
    simp only [List.isEmpty_nil, if_true] at hcr hupd
    rw [hcr, hupd]
    exact ⟨hc, hu⟩

/-- Witness for the amended C4 theorem: the Claude sandwich at a concrete
one-message conversation (envelope 10..20, message at 15). -/
theorem c4_timestamp_tightening_amended_witness :
    dtInstant (⟨10, some 0⟩ : PyDateTime) ≤ dtInstant (⟨15, some 0⟩ : PyDateTime) ∧
    dtInstant (⟨15, some 0⟩ : PyDateTime) ≤ dtInstant (⟨20, some 0⟩ : PyDateTime) := by
  exact c4_timestamp_tightening_amended.1
    [("uuid", .str "u1"),
     ("created_at", .str "1970-01-01T00:00:10+00:00"),
     ("updated_at", .str "1970-01-01T00:00:20+00:00"),
     ("chat_messages", .arr [.obj [("uuid", .str "m1"),
       ("sender", .str "human"),
       ("created_at", .str "1970-01-01T00:00:15+00:00"),
       ("content", .arr [.obj [("type", .str "text"), ("text", .str "hi")]])]])]
    now0
    { id := "u1", provider := "claude", title := "[Untitled]",
      created := ⟨10, some 0⟩, updated := ⟨20, some 0⟩,
      messages := [{ id := "m1", provider := "claude", role := "user",
                     created := ⟨15, some 0⟩, updated := some ⟨15, some 0⟩,
                     model := .null,
                     content := [{ type := "text", text := "hi",
                                   data := [("type", .str "text")] }] }] }
    { id := "m1", provider := "claude", role := "user",
      created := ⟨15, some 0⟩, updated := some ⟨15, some 0⟩, model := .null,
      content := [{ type := "text", text := "hi",
                    data := [("type", .str "text")] }] }
    (by with_unfolding_all rfl)
    (List.mem_singleton.mpr rfl)

/-- Every message produced by the ChatGPT message loop comes from one of the
node ids it was given. -/
theorem chatgptMessages_mem : ∀ (ids : List String)
    (mapping : List (String × Json)) (dm : Json) (created now : PyDateTime)
    (l : List MessageRecord),
    chatgptMessages mapping dm created now ids = .ok l →
    ∀ m ∈ l, ∃ nid ∈ ids,
      chatgptNodeMessage mapping dm created now nid = .ok (some m) := by
  intro ids
  induction ids with
  | nil =>
    intro mapping dm c now l h m hm
    cases h
    simp at hm
  | cons nid rest ih =>
    intro mapping dm c now l h m hm
    simp only [chatgptMessages] at h
    rw [except_bind_ok] at h
    obtain ⟨head, hhead, h⟩ := h
    rw [except_bind_ok] at h
    obtain ⟨tail, htail, h⟩ := h
    split at h
    · rename_i m0
      cases h
      rcases List.mem_cons.mp hm with heq | hm'
      · subst heq
        exact ⟨nid, by simp, hhead⟩
      · obtain ⟨nid', hnid', h'⟩ := ih mapping dm c now tail htail m hm'
        exact ⟨nid', by simp [hnid'], h'⟩
    · cases h
      obtain ⟨nid', hnid', h'⟩ := ih mapping dm c now l htail m hm
      exact ⟨nid', by simp [hnid'], h'⟩

/-- C1: for a tree-format ChatGPT conversation whose node mapping contains
the (string) `current_node` pointer, the parser emits exactly the messages
of the active branch: the parent-pointer walk from `current_node`, reversed
to root-to-current order, drives the message loop, and every emitted message
arises from a node id on that path, so ids off the path are absent. -/
theorem c1_active_branch_selection
    (rkvs : List (String × Json)) (now : PyDateTime) (conv : ConversationRecord)
    (cn : String) (mapping : List (String × Json))
    (h : parse_chatgpt_conversation (.obj rkvs) now = .ok (some conv))
    (hmap : (match pyOr ((dictGet "mapping" rkvs).getD .null) (.obj []) with
       | .obj m => m
       | _ => []) = mapping)
    (hcn : (dictGet "current_node" rkvs).getD .null = .str cn)
    (hcn' : cn ≠ "")
    (hmem : (dictGet cn mapping).isSome = true) :
    ∃ created0 walked msgs,
      parse_unix_datetime ((dictGet "create_time" rkvs).getD .null) none now
        = .ok created0 ∧
      branchWalk mapping (dictKeys mapping) (.str cn) = .ok walked ∧
      build_active_branch_path mapping (.str cn) = .ok walked.reverse ∧
      chatgptMessages mapping ((dictGet "default_model_slug" rkvs).getD .null)
        created0 now walked.reverse = .ok msgs ∧
      conv.messages = msgs ∧
      (∀ m ∈ conv.messages, ∃ nid ∈ walked.reverse,
        chatgptNodeMessage mapping
          ((dictGet "default_model_slug" rkvs).getD .null) created0 now nid
          = .ok (some m)) := by
  obtain ⟨created0, updated0, node_ids, msgs, hc, hu, hb, hmsg, hmeq, -, -⟩ :=
    parse_chatgpt_conversation_inversion rkvs now conv h
  rw [hmap, hcn] at hb
  rw [hmap] at hmsg
  have hb0 := hb
  have hq : mapping.isEmpty = false := by
    cases mapping with
    | nil => simp [dictGet] at hmem
    | cons p rest => rfl
  have ht : truthy (.str cn) = true := by simp [truthy, hcn']
  have hin : pyInDict (.str cn) mapping = .ok true := by
    simp [pyInDict, hmem]
  rw [build_active_branch_path.eq_def] at hb
  split at hb
  · rename_i hemp
    rw [hq] at hemp
    exact absurd hemp (by simp)
  · rw [hin] at hb
    dsimp only at hb
    cases hw : branchWalk mapping (dictKeys mapping) (.str cn) with
    | error e =>
      rw [hw] at hb
      exact absurd hb (by simp [Except.map])
    | ok walked =>
      rw [hw] at hb
      simp only [Except.map, Except.ok.injEq] at hb
      subst hb
      refine ⟨created0, walked, msgs, hc, rfl, hb0, hmsg, hmeq, ?_⟩
      intro m hm
      rw [hmeq] at hm
      exact chatgptMessages_mem walked.reverse mapping _ created0 now msgs hmsg m hm

/-- Witness for C1 at a two-node conversation whose active branch is
`a -> b`. -/
theorem c1_active_branch_selection_witness :
    ∃ created0 walked msgs,
      parse_unix_datetime ((dictGet "create_time"
        [("id", Json.str "c1"),
         ("create_time", Json.num 100),
         ("current_node", Json.str "b"),
         ("mapping", Json.obj [
           ("a", Json.obj [("parent", Json.null),
             ("message", Json.obj [("id", Json.str "ma"),
               ("author", Json.obj [("role", Json.str "user")]),
               ("create_time", Json.num 100),
               ("content", Json.obj [("content_type", Json.str "text"),
                 ("parts", Json.arr [Json.str "hi"])])])]),
           ("b", Json.obj [("parent", Json.str "a"),
             ("message", Json.obj [("id", Json.str "mb"),
               ("author", Json.obj [("role", Json.str "assistant")]),
               ("create_time", Json.num 50),
               ("content", Json.obj [("content_type", Json.str "text"),
                 ("parts", Json.arr [Json.str "yo"])])])])])]).getD .null)
        none now0 = .ok created0 ∧
      branchWalk
        [("a", Json.obj [("parent", Json.null),
           ("message", Json.obj [("id", Json.str "ma"),
             ("author", Json.obj [("role", Json.str "user")]),
             ("create_time", Json.num 100),
             ("content", Json.obj [("content_type", Json.str "text"),
               ("parts", Json.arr [Json.str "hi"])])])]),
         ("b", Json.obj [("parent", Json.str "a"),
           ("message", Json.obj [("id", Json.str "mb"),
             ("author", Json.obj [("role", Json.str "assistant")]),
             ("create_time", Json.num 50),
             ("content", Json.obj [("content_type", Json.str "text"),
               ("parts", Json.arr [Json.str "yo"])])])])]
        (dictKeys
          [("a", Json.obj [("parent", Json.null),
             ("message", Json.obj [("id", Json.str "ma"),
               ("author", Json.obj [("role", Json.str "user")]),
               ("create_time", Json.num 100),
               ("content", Json.obj [("content_type", Json.str "text"),
                 ("parts", Json.arr [Json.str "hi"])])])]),
           ("b", Json.obj [("parent", Json.str "a"),
             ("message", Json.obj [("id", Json.str "mb"),
               ("author", Json.obj [("role", Json.str "assistant")]),
               ("create_time", Json.num 50),
               ("content", Json.obj [("content_type", Json.str "text"),
                 ("parts", Json.arr [Json.str "yo"])])])])])
        (.str "b") = .ok walked ∧
      build_active_branch_path
        [("a", Json.obj [("parent", Json.null),
           ("message", Json.obj [("id", Json.str "ma"),
             ("author", Json.obj [("role", Json.str "user")]),
             ("create_time", Json.num 100),
             ("content", Json.obj [("content_type", Json.str "text"),
               ("parts", Json.arr [Json.str "hi"])])])]),
         ("b", Json.obj [("parent", Json.str "a"),
           ("message", Json.obj [("id", Json.str "mb"),
             ("author", Json.obj [("role", Json.str "assistant")]),
             ("create_time", Json.num 50),
             ("content", Json.obj [("content_type", Json.str "text"),
               ("parts", Json.arr [Json.str "yo"])])])])]
        (.str "b") = .ok walked.reverse ∧
      chatgptMessages
        [("a", Json.obj [("parent", Json.null),
           ("message", Json.obj [("id", Json.str "ma"),
             ("author", Json.obj [("role", Json.str "user")]),
             ("create_time", Json.num 100),
             ("content", Json.obj [("content_type", Json.str "text"),
               ("parts", Json.arr [Json.str "hi"])])])]),
         ("b", Json.obj [("parent", Json.str "a"),
           ("message", Json.obj [("id", Json.str "mb"),
             ("author", Json.obj [("role", Json.str "assistant")]),
             ("create_time", Json.num 50),
             ("content", Json.obj [("content_type", Json.str "text"),
               ("parts", Json.arr [Json.str "yo"])])])])]
        ((dictGet "default_model_slug"
          [("id", Json.str "c1"),
           ("create_time", Json.num 100),
           ("current_node", Json.str "b"),
           ("mapping", Json.obj [
             ("a", Json.obj [("parent", Json.null),
               ("message", Json.obj [("id", Json.str "ma"),
                 ("author", Json.obj [("role", Json.str "user")]),
                 ("create_time", Json.num 100),
                 ("content", Json.obj [("content_type", Json.str "text"),
                   ("parts", Json.arr [Json.str "hi"])])])]),
             ("b", Json.obj [("parent", Json.str "a"),
               ("message", Json.obj [("id", Json.str "mb"),
                 ("author", Json.obj [("role", Json.str "assistant")]),
                 ("create_time", Json.num 50),
                 ("content", Json.obj [("content_type", Json.str "text"),
                   ("parts", Json.arr [Json.str "yo"])])])])])]).getD .null)
        created0 now0 walked.reverse = .ok msgs ∧
      ([{ id := "ma", provider := "chatgpt", role := "user",
          created := ⟨100, some 0⟩, updated := some ⟨100, some 0⟩,
          model := .null,
          content := [{ type := "text", text := "hi", data := [] }] },
        { id := "mb", provider := "chatgpt", role := "assistant",
          created := ⟨50, some 0⟩, updated := some ⟨50, some 0⟩,
          model := .null,
          content := [{ type := "text", text := "yo", data := [] }] }]
        : List MessageRecord) = msgs ∧
      (∀ m ∈ ([{ id := "ma", provider := "chatgpt", role := "user",
                 created := ⟨100, some 0⟩, updated := some ⟨100, some 0⟩,
                 model := .null,
                 content := [{ type := "text", text := "hi", data := [] }] },
               { id := "mb", provider := "chatgpt", role := "assistant",
                 created := ⟨50, some 0⟩, updated := some ⟨50, some 0⟩,
                 model := .null,
                 content := [{ type := "text", text := "yo", data := [] }] }]
               : List MessageRecord), ∃ nid ∈ walked.reverse,
        chatgptNodeMessage
          [("a", Json.obj [("parent", Json.null),
             ("message", Json.obj [("id", Json.str "ma"),
               ("author", Json.obj [("role", Json.str "user")]),
               ("create_time", Json.num 100),
               ("content", Json.obj [("content_type", Json.str "text"),
                 ("parts", Json.arr [Json.str "hi"])])])]),
           ("b", Json.obj [("parent", Json.str "a"),
             ("message", Json.obj [("id", Json.str "mb"),
               ("author", Json.obj [("role", Json.str "assistant")]),
               ("create_time", Json.num 50),
               ("content", Json.obj [("content_type", Json.str "text"),
                 ("parts", Json.arr [Json.str "yo"])])])])]
          ((dictGet "default_model_slug"
            [("id", Json.str "c1"),
             ("create_time", Json.num 100),
             ("current_node", Json.str "b"),
             ("mapping", Json.obj [
               ("a", Json.obj [("parent", Json.null),
                 ("message", Json.obj [("id", Json.str "ma"),
                   ("author", Json.obj [("role", Json.str "user")]),
                   ("create_time", Json.num 100),
                   ("content", Json.obj [("content_type", Json.str "text"),
                     ("parts", Json.arr [Json.str "hi"])])])]),
               ("b", Json.obj [("parent", Json.str "a"),
                 ("message", Json.obj [("id", Json.str "mb"),
                   ("author", Json.obj [("role", Json.str "assistant")]),
                   ("create_time", Json.num 50),
                   ("content", Json.obj [("content_type", Json.str "text"),
                     ("parts", Json.arr [Json.str "yo"])])])])])]).getD .null)
          created0 now0 nid = .ok (some m)) := by
  exact c1_active_branch_selection
    [("id", Json.str "c1"),
     ("create_time", Json.num 100),
     ("current_node", Json.str "b"),
     ("mapping", Json.obj [
       ("a", Json.obj [("parent", Json.null),
         ("message", Json.obj [("id", Json.str "ma"),
           ("author", Json.obj [("role", Json.str "user")]),
           ("create_time", Json.num 100),
           ("content", Json.obj [("content_type", Json.str "text"),
             ("parts", Json.arr [Json.str "hi"])])])]),
       ("b", Json.obj [("parent", Json.str "a"),
         ("message", Json.obj [("id", Json.str "mb"),
           ("author", Json.obj [("role", Json.str "assistant")]),
           ("create_time", Json.num 50),
           ("content", Json.obj [("content_type", Json.str "text"),
             ("parts", Json.arr [Json.str "yo"])])])])])]
    now0
    { id := "c1", provider := "chatgpt", title := "[Untitled]",
      created := ⟨100, some 0⟩, updated := ⟨100, some 0⟩,
      messages := [{ id := "ma", provider := "chatgpt", role := "user",
                     created := ⟨100, some 0⟩,
                     updated := some ⟨100, some 0⟩, model := .null,
                     content := [{ type := "text", text := "hi",
                                   data := [] }] },
                   { id := "mb", provider := "chatgpt", role := "assistant",
                     created := ⟨50, some 0⟩,
                     updated := some ⟨50, some 0⟩, model := .null,
                     content := [{ type := "text", text := "yo",
                                   data := [] }] }] }
    "b"
    [("a", Json.obj [("parent", Json.null),
       ("message", Json.obj [("id", Json.str "ma"),
         ("author", Json.obj [("role", Json.str "user")]),
         ("create_time", Json.num 100),
         ("content", Json.obj [("content_type", Json.str "text"),
           ("parts", Json.arr [Json.str "hi"])])])]),
     ("b", Json.obj [("parent", Json.str "a"),
       ("message", Json.obj [("id", Json.str "mb"),
         ("author", Json.obj [("role", Json.str "assistant")]),
         ("create_time", Json.num 50),
         ("content", Json.obj [("content_type", Json.str "text"),
           ("parts", Json.arr [Json.str "yo"])])])])]
    (by with_unfolding_all rfl)
    rfl
    rfl
    (by decide)
    rfl
